import Mathlib

/-!
Verification development for the ADOS LLM-agent kernel
(`src/ados/layer2_kernel/agents.py`): a shallow embedding of the
resilient LLM invoker (TTL cache, retry with exponential backoff,
daily-quota short-circuit, ordered model fallback), the response
parser `_extract_json`, and the five stage wrappers
(intent / discovery / query / trust / analyst agents), together with
theorems settling the specified behavioural properties.

Modelling conventions:
* Machine time is modelled as `ℚ`; `time.time()` values are threaded
  explicitly (the module-global cache becomes an explicit value).
* A raised Python exception is represented by its `str(e)` message,
  since all classification in the source is on the message text.
* The LLM network call `chain.invoke(params)` is an oracle
  (`Nat → Except String String`, indexed by attempt number); fallback
  chains `prompt | ChatGroq(model) | StrOutputParser()` are an oracle
  indexed by the prompt-template identity and the model name.
-/

namespace Ados

/-! ### String helpers (Python `in`, `lower`, `strip`) -/

/-- `takeStart needle hay`: does `hay` begin with `needle`? -/
def takeStart : List Char → List Char → Bool
  | [], _ => true
  | _ :: _, [] => false
  | a :: as, b :: bs => a == b && takeStart as bs

/-- `subChars needle hay`: does `needle` occur contiguously in `hay`?
(Python's `needle in hay` on strings.) -/
def subChars (needle : List Char) : List Char → Bool
  | [] => takeStart needle []
  | c :: hs => takeStart needle (c :: hs) || subChars needle hs

/-- Python `needle in hay` for strings. -/
def hasSub (hay needle : String) : Bool :=
  subChars needle.toList hay.toList

/-- Python `s.lower()` (per-character lower-casing). -/
def pyLower (s : String) : String :=
  String.mk (s.toList.map Char.toLower)

/-- Python whitespace for `str.strip()` (the ASCII part; the rare
non-ASCII Unicode spaces are not modelled). -/
def pyWs (c : Char) : Bool :=
  c = ' ' || c = '\t' || c = '\n' || c = '\r' || c = (Char.ofNat 11) || c = (Char.ofNat 12)

/-- Python `s.strip()`. -/
def pyStrip (s : String) : String :=
  String.mk (((s.toList.dropWhile pyWs).reverse.dropWhile pyWs).reverse)

/-- Python `s.split(",")`: split at every comma, keeping empty pieces. -/
def splitCommaAux : List Char → List Char → List String
  | [], acc => [String.mk acc.reverse]
  | ',' :: rest, acc => String.mk acc.reverse :: splitCommaAux rest []
  | c :: rest, acc => splitCommaAux rest (c :: acc)

/-- Python `s.split(",")`. -/
def splitComma (s : String) : List String :=
  splitCommaAux s.toList []

/-! ### Error classification (`_is_rate_limit`, `_is_daily_limit`,
`_is_model_unavailable` from `agents.py`).  An exception is its
`str(e)` message. -/

/-- `_is_rate_limit`: `"429" in s or "rate_limit" in s or "rate limit" in s`
on the lower-cased message. -/
def is_rate_limit (err : String) : Bool :=
  let s := pyLower err
  hasSub s "429" || hasSub s "rate_limit" || hasSub s "rate limit"

/-- `_is_daily_limit`: a rate limit whose lower-cased message also
contains `"per day"` or `"tpd"`. -/
def is_daily_limit (err : String) : Bool :=
  let s := pyLower err
  is_rate_limit err && (hasSub s "per day" || hasSub s "tpd")

/-- `_is_model_unavailable`: any of the unavailability markers occurs in
the lower-cased message. -/
def is_model_unavailable (err : String) : Bool :=
  let s := pyLower err
  hasSub s "decommission" || hasSub s "not found" || hasSub s "does not exist" ||
    hasSub s "model_not_active" || hasSub s "invalid model"

/-! ### Settings (`ados/config.py`, the fields the invoker reads) -/

/-- The slice of `AppSettings.llm` consumed by `_invoke_with_retry`:
`cache_ttl_seconds` (seconds, `0` disables the cache) and
`fallback_models` (comma-separated model names).  The remaining fields
(`model_name`, `api_key`, `temperature`) only parameterize the network
call, which is an oracle here. -/
structure Settings where
  cache_ttl_seconds : ℚ
  fallback_models : String
deriving Repr, DecidableEq

/-- `_get_fallback_models`:
`[m.strip() for m in raw.split(",") if m.strip()]`. -/
def get_fallback_models (s : Settings) : List String :=
  ((splitComma s.fallback_models).map pyStrip).filter (fun m => m ≠ "")

/-! ### Invocation parameters and the cache key (`_cache_key`) -/

/-- A prompt-parameter value: the stages pass strings and one integer
(`row_count`). -/
inductive PValue where
  | pstr (s : String)
  | pint (n : Int)
deriving Repr, DecidableEq

/-- `InvocationParams`: the `params` dict handed to `chain.invoke`.
Keys are distinct (it models a Python dict). -/
abbrev Params := List (String × PValue)

/-- JSON escaping of one character as `json.dumps(..., ensure_ascii=False)`
performs it: `"` and `\` and the short control escapes, other control
characters as `\u00XX`, everything else literal. -/
def jsonEscapeChar (c : Char) : String :=
  if c = '"' then "\\\""
  else if c = '\\' then "\\\\"
  else if c = '\n' then "\\n"
  else if c = '\t' then "\\t"
  else if c = '\r' then "\\r"
  else if c = (Char.ofNat 8) then "\\b"
  else if c = (Char.ofNat 12) then "\\f"
  else if c.toNat < 32 then
    let hex := Nat.toDigits 16 c.toNat
    let pad := List.replicate (4 - hex.length) '0'
    "\\u" ++ String.mk (pad ++ hex)
  else String.singleton c

/-- JSON string-body escaping. -/
def jsonEscape (s : String) : String :=
  String.join (s.toList.map jsonEscapeChar)

/-- Rendering of one parameter value as `json.dumps` renders it. -/
def renderPValue : PValue → String
  | .pstr s => "\"" ++ jsonEscape s ++ "\""
  | .pint n => toString n

/-- Insertion into a key-sorted association list (for `sort_keys=True`). -/
def insertByKey (p : String × PValue) : List (String × PValue) → List (String × PValue)
  | [] => [p]
  | q :: rest => if p.1 ≤ q.1 then p :: q :: rest else q :: insertByKey p rest

/-- Key-sorting of the parameter dict (for `sort_keys=True`). -/
def sortByKey : List (String × PValue) → List (String × PValue)
  | [] => []
  | p :: rest => insertByKey p (sortByKey rest)

/-- `json.dumps(params, sort_keys=True, ensure_ascii=False, default=str)`:
the canonical serialization from which `_cache_key` hashes. -/
def canonicalParams (params : Params) : String :=
  let items := (sortByKey params).map
    (fun kv => "\"" ++ jsonEscape kv.1 ++ "\": " ++ renderPValue kv.2)
  "\x7b" ++ String.intercalate ", " items ++ "\x7d"

/-- `_cache_key`: the source computes
`hashlib.sha256(canonical.encode()).hexdigest()`.  The cryptographic
hash is modelled by the canonical string itself (an injective
stand-in): every property claimed of the key depends only on the key
being a deterministic function of the canonical serialization, never on
the hash's output format. -/
def cache_key (params : Params) : String :=
  canonicalParams params

/-! ### The TTL cache (`_llm_cache`, `_cache_get`, `_cache_put`) -/

/-- The module-global `_llm_cache : Dict[str, (timestamp, response)]`,
as an explicit association list with at most one entry per key. -/
abbrev Cache := List (String × ℚ × String)

/-- Dict lookup. -/
def cacheLookup : Cache → String → Option (ℚ × String)
  | [], _ => none
  | (k, ts, v) :: rest, key => if k = key then some (ts, v) else cacheLookup rest key

/-- Dict `pop(key, None)`. -/
def cacheErase : Cache → String → Cache
  | [], _ => []
  | (k, ts, v) :: rest, key =>
    if k = key then cacheErase rest key else (k, ts, v) :: cacheErase rest key

/-- Dict assignment `_llm_cache[key] = (now, value)`. -/
def cacheSet (c : Cache) (key : String) (ts : ℚ) (v : String) : Cache :=
  (key, ts, v) :: cacheErase c key

/-- `_cache_get(key, ttl)` at wall-clock time `now`: `None` when the
cache is disabled or the key is missing; evicts and reports absent when
the entry is older than `ttl`; otherwise returns the stored response.
The pair's second component is the cache after the (possible) eviction. -/
def cache_get (c : Cache) (key : String) (ttl : ℚ) (now : ℚ) : Option String × Cache :=
  if ttl ≤ 0 then (none, c)
  else
    match cacheLookup c key with
    | none => (none, c)
    | some (ts, v) => if now - ts > ttl then (none, cacheErase c key) else (some v, c)

/-- `_cache_put(key, value, ttl)` at wall-clock time `now`. -/
def cache_put (c : Cache) (key : String) (v : String) (ttl : ℚ) (now : ℚ) : Cache :=
  if ttl > 0 then cacheSet c key now v else c

/-! ### The resilient invoker (`_invoke_with_retry`) -/

/-- One model attempt, as recorded in order of execution:
`primary n` is the `n`-th iteration of the primary retry loop
(`for attempt in range(max_retries)`), `fallback m` is the one-shot
call to fallback model `m`. -/
inductive Attempt where
  | primary (n : Nat)
  | fallback (model : String)
deriving Repr, DecidableEq

/-- The LangChain chain `INTENT_PROMPT | llm | StrOutputParser()` etc.:
its prompt-template identity (`chain.first`) and its network behaviour.
`run n` is the outcome of `chain.invoke(params)` on the `n`-th attempt:
`.ok text` for a response, `.error msg` for a raised exception with
message `msg`. -/
structure Chain where
  template : String
  run : Nat → Except String String

/-- The network behaviour of the fallback chains
`prompt | ChatGroq(model=fb_model, ...) | StrOutputParser()`:
indexed by the prompt-template identity and the fallback model name. -/
abbrev FallbackRun := String → String → Except String String

/-- How the primary-model loop (step 1 of `_invoke_with_retry`) ends. -/
inductive PKind where
  | success (r : String)
  | raised (e : String)
  | toFallback (lastErr : Option String)
deriving Repr

/-- Outcome of the primary-model loop: how it ended, the attempts made,
the backoff sleeps performed (in order), and the wall-clock time on
exit. -/
structure POut where
  kind : PKind
  trace : List Attempt
  sleeps : List ℚ
  endT : ℚ
deriving Repr

/-- Step 1 of `_invoke_with_retry`: `for attempt in range(max_retries)`,
invoking `run`.  `i` is the current attempt index, `remaining` the
attempts left in the budget, `t` the wall-clock time, `lastErr` the
`last_error` variable.  On success return; on a daily-limit error break
to the fallbacks; on any other rate-limit error sleep `2 ** attempt`
seconds and retry; on any other error re-raise. -/
def primary_go (run : Nat → Except String String) :
    Nat → Nat → ℚ → Option String → POut
  | _, 0, t, lastErr => ⟨.toFallback lastErr, [], [], t⟩
  | i, r + 1, t, _ =>
    match run i with
    | .ok res => ⟨.success res, [.primary i], [], t⟩
    | .error e =>
      if is_daily_limit e then ⟨.toFallback (some e), [.primary i], [], t⟩
      else if is_rate_limit e then
        let w : ℚ := 2 ^ i
        let rest := primary_go run (i + 1) r (t + w) (some e)
        ⟨rest.kind, .primary i :: rest.trace, w :: rest.sleeps, rest.endT⟩
      else ⟨.raised e, [.primary i], [], t⟩

/-- How the fallback walk (step 2 of `_invoke_with_retry`) ends. -/
inductive FKind where
  | success (r : String)
  | raised (e : String)
  | exhausted (lastErr : Option String)
deriving Repr

/-- Outcome of the fallback walk. -/
structure FOut where
  kind : FKind
  trace : List Attempt
  sleeps : List ℚ
  endT : ℚ
deriving Repr

/-- Step 2 of `_invoke_with_retry`: walk the fallback models in order.
On success return; on a rate-limit or model-unavailable error sleep the
fixed 1-second courtesy pause and try the next model; on any other
error re-raise. -/
def fallback_go (run : String → Except String String) :
    List String → ℚ → Option String → FOut
  | [], t, lastErr => ⟨.exhausted lastErr, [], [], t⟩
  | m :: rest, t, _ =>
    match run m with
    | .ok r => ⟨.success r, [.fallback m], [], t⟩
    | .error e =>
      if is_rate_limit e || is_model_unavailable e then
        let next := fallback_go run rest (t + 1) (some e)
        ⟨next.kind, .fallback m :: next.trace, (1 : ℚ) :: next.sleeps, next.endT⟩
      else ⟨.raised e, [.fallback m], [], t⟩

/-- Result of one `_invoke_with_retry` call: the cache key it used, the
returned text or raised exception (`.error none` models the
`raise last_error` with `last_error` still `None`, reachable only with
`max_retries = 0` and no fallbacks), the model attempts in order, the
sleeps performed, the cache after the call and the wall-clock time on
exit. -/
structure InvokeResult where
  ckey : String
  outcome : Except (Option String) String
  trace : List Attempt
  sleeps : List ℚ
  cache : Cache
  endT : ℚ

/-- `_invoke_with_retry(chain, params, settings, max_retries)`,
threading the module-global cache and the wall-lock time explicitly. -/
def invoke_with_retry (chain : Chain) (fbRun : FallbackRun) (params : Params)
    (s : Settings) (maxRetries : Nat) (cache : Cache) (t0 : ℚ) : InvokeResult :=
  let ttl := s.cache_ttl_seconds
  let ckey := cache_key params
  let looked := cache_get cache ckey ttl t0
  match looked.1 with
  | some v => ⟨ckey, .ok v, [], [], looked.2, t0⟩
  | none =>
    let c1 := looked.2
    let pOut := primary_go chain.run 0 maxRetries t0 none
    match pOut.kind with
    | .success r =>
      ⟨ckey, .ok r, pOut.trace, pOut.sleeps, cache_put c1 ckey r ttl pOut.endT, pOut.endT⟩
    | .raised e => ⟨ckey, .error (some e), pOut.trace, pOut.sleeps, c1, pOut.endT⟩
    | .toFallback le =>
      let fOut := fallback_go (fbRun chain.template) (get_fallback_models s) pOut.endT le
      match fOut.kind with
      | .success r =>
        ⟨ckey, .ok r, pOut.trace ++ fOut.trace, pOut.sleeps ++ fOut.sleeps,
          cache_put c1 ckey r ttl fOut.endT, fOut.endT⟩
      | .raised e =>
        ⟨ckey, .error (some e), pOut.trace ++ fOut.trace, pOut.sleeps ++ fOut.sleeps,
          c1, fOut.endT⟩
      | .exhausted le' =>
        ⟨ckey, .error le', pOut.trace ++ fOut.trace, pOut.sleeps ++ fOut.sleeps,
          c1, fOut.endT⟩

/-- Decidable equality for invocation outcomes (used to evaluate the
model on concrete inputs). -/
instance : DecidableEq (Except (Option String) String) := fun a b =>
  match a, b with
  | .ok x, .ok y =>
    if h : x = y then .isTrue (by rw [h]) else .isFalse (fun hc => h (Except.ok.inj hc))
  | .error x, .error y =>
    if h : x = y then .isTrue (by rw [h]) else .isFalse (fun hc => h (Except.error.inj hc))
  | .ok _, .error _ => .isFalse (fun hc => Except.noConfusion hc)
  | .error _, .ok _ => .isFalse (fun hc => Except.noConfusion hc)

/-! ### Python JSON values and `json.loads`

The response parser `_extract_json` calls the standard library's
`json.loads`, which is modelled here by a recursive-descent parser over
the same grammar (RFC 8259 plus Python's `NaN` / `Infinity` /
`-Infinity` extension).  Numbers are kept exactly as a decimal mantissa
and a power-of-ten exponent (`mant * 10 ^ exp10`), which avoids any
floating-point semantics; no verified property compares numbers across
distinct source representations. -/

/-- A decoded Python JSON value.  `num mant exp10` is the number
`mant * 10 ^ exp10` (a Python `int` when the source text had no
fraction and no exponent, a `float` otherwise); `nan` / `inf` are the
non-finite floats Python's decoder accepts. -/
inductive Json where
  | null
  | bool (b : Bool)
  | num (mant : Int) (exp10 : Int)
  | str (s : String)
  | arr (elems : List Json)
  | obj (fields : List (String × Json))
  | nan
  | inf (neg : Bool)
deriving Repr

/-- The whitespace the JSON grammar skips between tokens. -/
def jsonWs (c : Char) : Bool := c = ' ' || c = '\t' || c = '\n' || c = '\r'

/-- Skip inter-token whitespace. -/
def skipWs (cs : List Char) : List Char := cs.dropWhile jsonWs

/-- ASCII digit test. -/
def isDig (c : Char) : Bool := '0' ≤ c && c ≤ '9'

/-- Value of a digit string. -/
def digitsVal (ds : List Char) : Nat :=
  ds.foldl (fun acc c => acc * 10 + (c.toNat - '0'.toNat)) 0

/-- Value of one hex digit (by code point: `0`-`9`, `a`-`f`, `A`-`F`). -/
def hexVal (c : Char) : Option Nat :=
  let n := c.toNat
  if 48 ≤ n ∧ n ≤ 57 then some (n - 48)
  else if 97 ≤ n ∧ n ≤ 102 then some (n - 87)
  else if 65 ≤ n ∧ n ≤ 70 then some (n - 55)
  else none

/-- Code point to character; a lone surrogate (which Python keeps as a
lone surrogate in its `str`) has no Lean `Char` counterpart and maps to
U+FFFD. -/
def mkCharLoose (n : Nat) : Char :=
  if Nat.isValidChar n then Char.ofNat n else '�'

/-- One string escape after the backslash, following Python's decoder:
the short escapes, and `\uXXXX` with surrogate-pair combination. -/
def parseEscape : List Char → Option (Char × List Char)
  | '"' :: rest => some ('"', rest)
  | '\\' :: rest => some ('\\', rest)
  | '/' :: rest => some ('/', rest)
  | 'b' :: rest => some ((Char.ofNat 8), rest)
  | 'f' :: rest => some ((Char.ofNat 12), rest)
  | 'n' :: rest => some ('\n', rest)
  | 'r' :: rest => some ('\r', rest)
  | 't' :: rest => some ('\t', rest)
  | 'u' :: a :: b :: c :: d :: rest =>
    match hexVal a, hexVal b, hexVal c, hexVal d with
    | some ha, some hb, some hc, some hd =>
      let n := ((ha * 16 + hb) * 16 + hc) * 16 + hd
      if 0xd800 ≤ n && n < 0xdc00 then
        match rest with
        | '\\' :: 'u' :: a2 :: b2 :: c2 :: d2 :: rest2 =>
          match hexVal a2, hexVal b2, hexVal c2, hexVal d2 with
          | some ha2, some hb2, some hc2, some hd2 =>
            let m := ((ha2 * 16 + hb2) * 16 + hc2) * 16 + hd2
            if 0xdc00 ≤ m && m < 0xe000 then
              some (mkCharLoose (0x10000 + (n - 0xd800) * 0x400 + (m - 0xdc00)), rest2)
            else some (mkCharLoose n, rest)
          | _, _, _, _ => some (mkCharLoose n, rest)
        | _ => some (mkCharLoose n, rest)
      else some (mkCharLoose n, rest)
    | _, _, _, _ => none
  | _ => none

/-- String body after the opening quote; like Python's strict decoder,
an unescaped control character is rejected. -/
def parseStringBody : Nat → List Char → Option (List Char × List Char)
  | 0, _ => none
  | _ + 1, [] => none
  | _ + 1, '"' :: rest => some ([], rest)
  | fuel + 1, '\\' :: rest =>
    match parseEscape rest with
    | some (c, rest2) =>
      match parseStringBody fuel rest2 with
      | some (cs, rest3) => some (c :: cs, rest3)
      | none => none
    | none => none
  | fuel + 1, c :: rest =>
    if c.toNat < 32 then none
    else
      match parseStringBody fuel rest with
      | some (cs, rest2) => some (c :: cs, rest2)
      | none => none

/-- JSON number, grammar `-?(0|[1-9][0-9]*)(\.[0-9]+)?([eE][+-]?[0-9]+)?`:
signed mantissa and decimal exponent.  A `.` or `e` not followed by
digits is left as trailing input, exactly as the decoder's regex stops
before it. -/
def parseNum (cs : List Char) : Option ((Int × Int) × List Char) :=
  let (neg, cs1) := match cs with
    | '-' :: rest => (true, rest)
    | _ => (false, cs)
  let intPart : Option (List Char × List Char) := match cs1 with
    | '0' :: rest => some (['0'], rest)
    | c :: rest => if isDig c && c ≠ '0' then
        some (c :: rest.takeWhile isDig, rest.dropWhile isDig) else none
    | [] => none
  match intPart with
  | none => none
  | some (ids, cs2) =>
    let (fds, cs3) : List Char × List Char := match cs2 with
      | '.' :: rest =>
        let f := rest.takeWhile isDig
        if f.isEmpty then ([], cs2) else (f, rest.dropWhile isDig)
      | _ => ([], cs2)
    let (expVal, cs4) : Int × List Char := match cs3 with
      | e :: rest =>
        if e = 'e' || e = 'E' then
          let (esign, rest2) : Int × List Char := match rest with
            | '+' :: r => (1, r)
            | '-' :: r => (-1, r)
            | _ => (1, rest)
          let eds := rest2.takeWhile isDig
          if eds.isEmpty then (0, cs3)
          else (esign * (digitsVal eds : Int), rest2.dropWhile isDig)
        else (0, cs3)
      | [] => (0, cs3)
    let mantissa : Int := (digitsVal (ids ++ fds) : Int)
    let sgn : Int := if neg then -1 else 1
    some ((sgn * mantissa, expVal - (fds.length : Int)), cs4)

/-- Consume a literal keyword. -/
def takeLit (lit : List Char) (cs : List Char) : Option (List Char) :=
  if cs.take lit.length = lit then some (cs.drop lit.length) else none

/-- Parser mode: a value, the items of an array after `[`, or the
members of an object after `\x7b`. -/
inductive PMode where
  | val
  | arrItems (first : Bool)
  | objItems (first : Bool)

/-- The decoder: one JSON value / array tail / object tail, by
structural recursion on a fuel bound so that the kernel can evaluate it.
Each recursive call strips at least one character, so any fuel larger
than the input length is enough. -/
def parseF : Nat → PMode → List Char → Option (Json × List Char)
  | 0, _, _ => none
  | fuel + 1, .val, cs =>
    match skipWs cs with
    | [] => none
    | 'n' :: rest => (takeLit ['u','l','l'] rest).map (fun r => (Json.null, r))
    | 't' :: rest => (takeLit ['r','u','e'] rest).map (fun r => (Json.bool true, r))
    | 'f' :: rest => (takeLit ['a','l','s','e'] rest).map (fun r => (Json.bool false, r))
    | 'N' :: rest => (takeLit ['a','N'] rest).map (fun r => (Json.nan, r))
    | 'I' :: rest =>
      (takeLit ['n','f','i','n','i','t','y'] rest).map (fun r => (Json.inf false, r))
    | '"' :: rest =>
      match parseStringBody (rest.length + 1) rest with
      | some (body, rest2) => some (Json.str (String.mk body), rest2)
      | none => none
    | '[' :: rest => parseF fuel (.arrItems true) (skipWs rest)
    | '{' :: rest => parseF fuel (.objItems true) (skipWs rest)
    | '-' :: 'I' :: rest =>
      (takeLit ['n','f','i','n','i','t','y'] rest).map (fun r => (Json.inf true, r))
    | c :: rest =>
      if isDig c || c = '-' then
        (parseNum (c :: rest)).map (fun p => (Json.num p.1.1 p.1.2, p.2))
      else none
  | _ + 1, .arrItems true, ']' :: rest => some (Json.arr [], rest)
  | fuel + 1, .arrItems _, cs =>
    match parseF fuel .val cs with
    | none => none
    | some (v, rest) =>
      match skipWs rest with
      | ']' :: rest2 => some (Json.arr [v], rest2)
      | ',' :: rest2 =>
        match parseF fuel (.arrItems false) (skipWs rest2) with
        | some (Json.arr vs, rest3) => some (Json.arr (v :: vs), rest3)
        | _ => none
      | _ => none
  | _ + 1, .objItems true, '}' :: rest => some (Json.obj [], rest)
  | fuel + 1, .objItems _, cs =>
    match cs with
    | '"' :: rest =>
      match parseStringBody (rest.length + 1) rest with
      | none => none
      | some (keyChars, rest2) =>
        match skipWs rest2 with
        | ':' :: rest3 =>
          match parseF fuel .val rest3 with
          | none => none
          | some (v, rest4) =>
            match skipWs rest4 with
            | '}' :: rest5 => some (Json.obj [(String.mk keyChars, v)], rest5)
            | ',' :: rest5 =>
              match parseF fuel (.objItems false) (skipWs rest5) with
              | some (Json.obj kvs, rest6) =>
                some (Json.obj ((String.mk keyChars, v) :: kvs), rest6)
              | _ => none
            | _ => none
        | _ => none
    | _ => none

/-- `json.loads`: decode one value, then require only whitespace to
remain (else Python raises `Extra data`).  `none` models a raised
`JSONDecodeError`. -/
def json_loads (s : String) : Option Json :=
  let cs := s.toList
  match parseF (2 * cs.length + 8) .val cs with
  | some (j, rest) => if (skipWs rest).isEmpty then some j else none
  | none => none

/-! ### The response parser (`_extract_json`, `_extract_sql`) -/

/-- The whitespace class of Python's regex `\s` (on ASCII input). -/
def reWs (c : Char) : Bool := c.isWhitespace || c = (Char.ofNat 11) || c = (Char.ofNat 12)

/-- Suffix after the first occurrence of three backticks. -/
def findTicks : List Char → Option (List Char)
  | '`' :: '`' :: '`' :: rest => some rest
  | _ :: rest => findTicks rest
  | [] => none

/-- Characters before the next occurrence of three backticks, if any. -/
def splitAtTicks : List Char → Option (List Char)
  | '`' :: '`' :: '`' :: _ => some []
  | c :: rest => (splitAtTicks rest).map (c :: ·)
  | [] => none

/-- Remove a single trailing newline (the lazy group cedes it to the
regex's final `\n?`). -/
def dropLastNewline (cs : List Char) : List Char :=
  match cs.reverse with
  | '\n' :: rest => rest.reverse
  | _ => cs

/-- After the opening fence and optional tag: skip `\s*`, take the lazy
group up to the closing fence, cede one trailing newline. -/
def fencedAfterTag (afterTag : List Char) : Option String :=
  let afterWs := afterTag.dropWhile reWs
  (splitAtTicks afterWs).map (fun content => String.mk (dropLastNewline content))

/-- `re.search(r"` ``(?:json)?\s*\n?(.*?)\n?``` `", text, re.DOTALL)`:
the group of the first markdown code fence. -/
def fencedBlock (s : String) : Option String :=
  match findTicks s.toList with
  | none => none
  | some afterOpen =>
    let afterTag := if afterOpen.take 4 = ['j','s','o','n'] then afterOpen.drop 4 else afterOpen
    fencedAfterTag afterTag

/-- Index of the first occurrence of a character. -/
def firstIdx (c : Char) : List Char → Option Nat
  | [] => none
  | x :: rest => if x = c then some 0 else (firstIdx c rest).map (· + 1)

/-- `re.search(r"\x7b.*\x7d", text, re.DOTALL)`: greedy, so the span
from the first opening brace to the last closing brace, when the former
precedes the latter. -/
def braceSpan (s : String) : Option String :=
  let cs := s.toList
  match firstIdx '{' cs, firstIdx '}' cs.reverse with
  | some i, some rj =>
    let j := cs.length - 1 - rj
    if i < j then some (String.mk ((cs.drop i).take (j - i + 1))) else none
  | _, _ => none

/-- `_extract_json`: try the fenced code block, else the brace span,
else the whole trimmed text; any decode failure falls through, and when
everything fails the result is the raw/parse-error mapping rather than
an exception.  Total by construction, mirroring the source's
try/except around each decode. -/
def extract_json (text : String) : Json :=
  let t1 := match fencedBlock text with
    | some inner => inner
    | none => text
  let fromBrace : Option Json := match braceSpan t1 with
    | some span => json_loads span
    | none => none
  match fromBrace with
  | some j => j
  | none =>
    match json_loads (pyStrip t1) with
    | some j => j
    | none => Json.obj [("raw", .str t1), ("parse_error", .bool true)]

/-- The code-fence regex of `_extract_sql`, whose optional tag is
`sql` or `cypher`. -/
def fencedBlockSql (s : String) : Option String :=
  match findTicks s.toList with
  | none => none
  | some afterOpen =>
    let afterTag :=
      if afterOpen.take 3 = ['s','q','l'] then afterOpen.drop 3
      else if afterOpen.take 6 = ['c','y','p','h','e','r'] then afterOpen.drop 6
      else afterOpen
    fencedAfterTag afterTag

/-- Index of the first occurrence of `needle` in `hay` (Python
`str.find`). -/
def findSub (needle : List Char) : List Char → Option Nat
  | [] => if needle.isEmpty then some 0 else none
  | c :: rest =>
    if takeStart needle (c :: rest) then some 0
    else (findSub needle rest).map (· + 1)

/-- First index at which the (lower-cased) text has `kw` followed by
`\s+.+` — at least one whitespace character and then at least one more
character; the match condition of
`re.search(r"(KW\s+.+)", re.DOTALL | re.IGNORECASE)`. -/
def keywordSearch (kw : List Char) : List Char → Option Nat
  | [] => none
  | c :: rest =>
    if takeStart kw (c :: rest) then
      let after := (c :: rest).drop kw.length
      match after with
      | w :: _ :: _ => if reWs w then some 0 else (keywordSearch kw rest).map (· + 1)
      | _ => (keywordSearch kw rest).map (· + 1)
    else (keywordSearch kw rest).map (· + 1)

/-- The trailing-prose trimming loop of `_extract_sql`:
sequentially, for each stop marker found at a positive index, truncate
before it and strip. -/
def applyStops (stops : List String) (q : String) : String :=
  stops.foldl (fun cur stop =>
    match findSub stop.toList cur.toList with
    | some idx => if idx > 0 then pyStrip (String.mk (cur.toList.take idx)) else cur
    | none => cur) q

/-- `_extract_sql`: a fenced block first; else from a `MATCH` keyword
(case-insensitive) to the end, trimmed at stop markers; else the same
for `SELECT`; else the trimmed text. -/
def extract_sql (text : String) : String :=
  match fencedBlockSql text with
  | some inner => pyStrip inner
  | none =>
    let cs := text.toList
    let low := cs.map Char.toLower
    match keywordSearch ['m','a','t','c','h'] low with
    | some i =>
      applyStops ["\n\n", "Note:", "This query", "Explanation", "This Cypher"]
        (pyStrip (String.mk (cs.drop i)))
    | none =>
      match keywordSearch ['s','e','l','e','c','t'] low with
      | some i =>
        applyStops ["\n\n", "Note:", "This query", "Explanation"]
          (pyStrip (String.mk (cs.drop i)))
      | none => pyStrip text

/-! ### Python-value helpers used by the stage wrappers -/

mutual

/-- `json.dumps(value, ensure_ascii=False)` with the default separators.
Finite non-integer numbers are rendered from the exact
mantissa/exponent pair (Python's float `repr` may differ in formatting
only; no verified property depends on this rendering). -/
def dumpJson : Json → String
  | .null => "null"
  | .bool true => "true"
  | .bool false => "false"
  | .num m e => if e = 0 then toString m else toString m ++ "e" ++ toString e
  | .str s => "\"" ++ jsonEscape s ++ "\""
  | .nan => "NaN"
  | .inf false => "Infinity"
  | .inf true => "-Infinity"
  | .arr xs => "[" ++ String.intercalate ", " (dumpList xs) ++ "]"
  | .obj kvs => "\x7b" ++ String.intercalate ", " (dumpFields kvs) ++ "\x7d"

/-- Dump of a list of array elements. -/
def dumpList : List Json → List String
  | [] => []
  | j :: rest => dumpJson j :: dumpList rest

/-- Dump of a list of object members. -/
def dumpFields : List (String × Json) → List String
  | [] => []
  | (k, v) :: rest => ("\"" ++ jsonEscape k ++ "\": " ++ dumpJson v) :: dumpFields rest

end

/-- Dict lookup on decoded object fields. -/
def jlookup : List (String × Json) → String → Option Json
  | [], _ => none
  | (k, v) :: rest, key => if k = key then some v else jlookup rest key

/-- `str(value)` as used in the stages' f-strings: exact for scalars;
containers are rendered via the JSON dump (an approximation of Python's
repr differing only in quote style and keyword casing). -/
def pyStr : Json → String
  | .str s => s
  | .null => "None"
  | .bool true => "True"
  | .bool false => "False"
  | .num m e => if e = 0 then toString m else toString m ++ "e" ++ toString e
  | .nan => "nan"
  | .inf false => "inf"
  | .inf true => "-inf"
  | .arr xs => dumpJson (.arr xs)
  | .obj kvs => dumpJson (.obj kvs)

/-- `d.get(key, default)` rendered through `str(...)` for an f-string. -/
def jgetDisplay (fields : List (String × Json)) (key : String) (dflt : String) : String :=
  match jlookup fields key with
  | some v => pyStr v
  | none => dflt

/-- Python truthiness of a decoded value. -/
def truthy : Json → Bool
  | .null => false
  | .bool b => b
  | .num m _ => m ≠ 0
  | .str s => s ≠ ""
  | .arr xs => ¬ xs.isEmpty
  | .obj kvs => ¬ kvs.isEmpty
  | .nan => true
  | .inf _ => true

/-- Python type name of a decoded value, for the `AttributeError`
message raised by calling `.get` on a non-dict. -/
def pyTypeName : Json → String
  | .null => "NoneType"
  | .bool _ => "bool"
  | .num _ e => if e = 0 then "int" else "float"
  | .str _ => "str"
  | .arr _ => "list"
  | .obj _ => "dict"
  | .nan => "float"
  | .inf _ => "float"

/-- `str(e)` of the `AttributeError` raised by `.get` on a non-dict. -/
def attrErrGet (j : Json) : String :=
  "\x27" ++ pyTypeName j ++ "\x27 object has no attribute \x27get\x27"

/-- `str(e)` of the `ValidationError` raised when a non-string value is
assigned to `AgentResult.message` (text approximated). -/
def pydanticErr : String :=
  "1 validation error for AgentResult: message must be a string"

/-! ### The stage wrappers (`run_*_agent`) -/

/-- `AgentResult` (`agents.py`): the stage name, `success`/`error`
status, the structured payload, and the human-readable message.  The
wall-clock fields (`execution_time_ms`, `timestamp`) are timing
bookkeeping and are omitted from the model. -/
structure AgentResult where
  agent_name : String
  status : String
  data : List (String × Json)
  message : String

/-- `str(e)` of the exception propagated out of `_invoke_with_retry`;
the payload `none` models the `raise None` `TypeError` corner
(unreachable with the stages' `max_retries = 3`). -/
def errText : Option String → String
  | some e => e
  | none => "exceptions must derive from BaseException"

/-- The `except Exception as e` arm shared by every stage:
`AgentResult(agent_name=name, status="error", data=\x7b"error": str(e)\x7d,
message=str(e))`. -/
def errorResult (name : String) (e : String) : AgentResult :=
  ⟨name, "error", [("error", .str e)], e⟩

/-- One row of query results (a Python dict). -/
abbrev Row := List (String × Json)

/-- The intent stage's prompt parameters. -/
def intentParams (query schema_context : String) : Params :=
  [("query", .pstr query), ("schema_context", .pstr schema_context)]

/-- The discovery stage's prompt parameters. -/
def discoveryParams (intent : Json) (schema_context kg_context : String) : Params :=
  [("schema_context", .pstr schema_context), ("kg_context", .pstr kg_context),
    ("intent_json", .pstr (dumpJson intent))]

/-- The query-generation stage's prompt parameters. -/
def queryParams (intent discovery : Json) (schema_context : String) : Params :=
  [("schema_context", .pstr schema_context), ("intent_json", .pstr (dumpJson intent)),
    ("discovery_json", .pstr (dumpJson discovery))]

/-- The columns of the first result row (`list(result_data[0].keys())`). -/
def firstRowColumns (result_data : List Row) : List String :=
  match result_data with
  | [] => []
  | r :: _ => r.map (fun kv => kv.1)

/-- The trust stage's prompt parameters. -/
def trustParams (user_query sql : String) (result_data : List Row) : Params :=
  [("user_query", .pstr user_query), ("sql", .pstr sql),
    ("row_count", .pint result_data.length),
    ("columns", .pstr (dumpJson (.arr ((firstRowColumns result_data).map .str)))),
    ("sample_data", .pstr (dumpJson (.arr ((result_data.take 3).map .obj))))]

/-- The pandas column union: keys of the row dicts in first-seen
order. -/
def columnsOf (rows : List Row) : List String :=
  rows.foldl (fun acc row =>
    row.foldl (fun acc2 kv => if acc2.contains kv.1 then acc2 else acc2 ++ [kv.1]) acc) []

/-- The analyst stage's prompt parameters.  The pandas numeric summary
is a floating-point statistic computed before the `try` block and is
taken as an opaque input string. -/
def analystParams (user_query sql : String) (result_data : List Row)
    (numeric_summary : String) : Params :=
  [("user_query", .pstr user_query), ("sql", .pstr sql),
    ("row_count", .pint result_data.length),
    ("columns", .pstr (dumpJson (.arr ((columnsOf result_data).map .str)))),
    ("sample_data", .pstr (dumpJson (.arr ((result_data.take 5).map .obj)))),
    ("numeric_summary", .pstr numeric_summary)]

/-- `run_intent_agent(llm, query, schema_context)`: invoke with the
query/schema parameters, extract the intent JSON, and wrap; any raised
failure (from the invoker, or the `.get` calls on a non-dict
extraction) becomes a status-`error` result. -/
def run_intent_agent (chain : Chain) (fbRun : FallbackRun) (s : Settings)
    (cache : Cache) (t0 : ℚ) (query schema_context : String) : AgentResult × Cache :=
  let inv := invoke_with_retry chain fbRun (intentParams query schema_context) s 3 cache t0
  match inv.outcome with
  | .ok raw =>
    match extract_json raw with
    | .obj intentFields =>
      (⟨"intent_agent", "success",
        [("intent", .obj intentFields), ("raw_response", .str raw)],
        "Intent: " ++ jgetDisplay intentFields "action" "unknown" ++ " — "
          ++ jgetDisplay intentFields "description" ""⟩, inv.cache)
    | other => (errorResult "intent_agent" (attrErrGet other), inv.cache)
  | .error e => (errorResult "intent_agent" (errText e), inv.cache)

/-- `run_discovery_agent(llm, intent, schema_context, kg_context)`.
On success the decoded payload itself is the result data and the
message is its `reasoning` field (a non-string `reasoning` fails
`AgentResult` validation inside the same `try`). -/
def run_discovery_agent (chain : Chain) (fbRun : FallbackRun) (s : Settings)
    (cache : Cache) (t0 : ℚ) (intent : Json) (schema_context kg_context : String) :
    AgentResult × Cache :=
  let inv := invoke_with_retry chain fbRun
    (discoveryParams intent schema_context kg_context) s 3 cache t0
  match inv.outcome with
  | .ok raw =>
    match extract_json raw with
    | .obj discoveryFields =>
      match jlookup discoveryFields "reasoning" with
      | some (.str reasoning) =>
        (⟨"discovery_agent", "success", discoveryFields, reasoning⟩, inv.cache)
      | none => (⟨"discovery_agent", "success", discoveryFields, ""⟩, inv.cache)
      | some _ => (errorResult "discovery_agent" pydanticErr, inv.cache)
    | other => (errorResult "discovery_agent" (attrErrGet other), inv.cache)
  | .error e => (errorResult "discovery_agent" (errText e), inv.cache)

/-- `run_query_agent(llm, intent, discovery, schema_context)`: the raw
response is cleaned by `_extract_sql` (total), kept under the legacy
`sql` key. -/
def run_query_agent (chain : Chain) (fbRun : FallbackRun) (s : Settings)
    (cache : Cache) (t0 : ℚ) (intent discovery : Json) (schema_context : String) :
    AgentResult × Cache :=
  let inv := invoke_with_retry chain fbRun
    (queryParams intent discovery schema_context) s 3 cache t0
  match inv.outcome with
  | .ok raw =>
    let cypher := extract_sql raw
    (⟨"query_agent", "success",
      [("sql", .str cypher), ("raw_response", .str raw)],
      "Cypher query generated (" ++ toString cypher.length ++ " chars)"⟩, inv.cache)
  | .error e => (errorResult "query_agent" (errText e), inv.cache)

/-- `run_trust_agent(llm, user_query, sql, result_data)`.  Its `except`
arm is distinctive: the error payload defaults to
`trust_score = 50, approved = True` alongside the error text. -/
def run_trust_agent (chain : Chain) (fbRun : FallbackRun) (s : Settings)
    (cache : Cache) (t0 : ℚ) (user_query sql : String) (result_data : List Row) :
    AgentResult × Cache :=
  let inv := invoke_with_retry chain fbRun
    (trustParams user_query sql result_data) s 3 cache t0
  let trustErr : String → AgentResult := fun e =>
    ⟨"trust_judge", "error",
      [("trust_score", .num 50 0), ("approved", .bool true), ("error", .str e)], e⟩
  match inv.outcome with
  | .ok raw =>
    match extract_json raw with
    | .obj trustFields =>
      let score := (jlookup trustFields "trust_score").getD (.num 75 0)
      let approved := (jlookup trustFields "approved").getD (.bool true)
      (⟨"trust_judge", "success", trustFields,
        "Trust Score: " ++ pyStr score ++ "/100 — "
          ++ (if truthy approved then "✔ APPROVED" else "✘ REJECTED")⟩, inv.cache)
    | other => (trustErr (attrErrGet other), inv.cache)
  | .error e => (trustErr (errText e), inv.cache)

/-- `run_analyst_agent(llm, user_query, sql, result_data)`.  The pandas
numeric summary is a floating-point statistic computed before the
`try` block; it is taken as an opaque input string here. -/
def run_analyst_agent (chain : Chain) (fbRun : FallbackRun) (s : Settings)
    (cache : Cache) (t0 : ℚ) (user_query sql : String) (result_data : List Row)
    (numeric_summary : String) : AgentResult × Cache :=
  let inv := invoke_with_retry chain fbRun
    (analystParams user_query sql result_data numeric_summary) s 3 cache t0
  match inv.outcome with
  | .ok raw =>
    match extract_json raw with
    | .obj analysisFields =>
      match jlookup analysisFields "summary" with
      | some (.str summary) =>
        (⟨"analyst_agent", "success", analysisFields, summary⟩, inv.cache)
      | none => (⟨"analyst_agent", "success", analysisFields, "Analysis complete"⟩, inv.cache)
      | some _ => (errorResult "analyst_agent" pydanticErr, inv.cache)
    | other => (errorResult "analyst_agent" (attrErrGet other), inv.cache)
  | .error e => (errorResult "analyst_agent" (errText e), inv.cache)

/-! ### Cache lemmas -/

theorem cacheLookup_set (c : Cache) (k : String) (ts : ℚ) (v : String) :
    cacheLookup (cacheSet c k ts v) k = some (ts, v) := by
  simp [cacheSet, cacheLookup]

theorem cacheLookup_erase (c : Cache) (k : String) :
    cacheLookup (cacheErase c k) k = none := by
  induction c with
  | nil => simp [cacheErase, cacheLookup]
  | cons hd tl ih =>
    obtain ⟨k2, ts, v⟩ := hd
    by_cases h : k2 = k <;> simp [cacheErase, cacheLookup, h, ih]

/-! ### Invoker dispatch lemmas: the value of `invoke_with_retry` in
each of its six control-flow outcomes. -/

theorem invoke_hit (chain : Chain) (fbRun : FallbackRun) (p : Params) (s : Settings)
    (maxR : Nat) (c : Cache) (t0 : ℚ) (v : String) (c2 : Cache)
    (h : cache_get c (cache_key p) s.cache_ttl_seconds t0 = (some v, c2)) :
    invoke_with_retry chain fbRun p s maxR c t0 =
      ⟨cache_key p, .ok v, [], [], c2, t0⟩ := by
  simp only [invoke_with_retry, h]

theorem invoke_miss_psuccess (chain : Chain) (fbRun : FallbackRun) (p : Params)
    (s : Settings) (maxR : Nat) (c : Cache) (t0 : ℚ) (c1 : Cache) (r : String)
    (ptr : List Attempt) (psl : List ℚ) (pt : ℚ)
    (hlook : cache_get c (cache_key p) s.cache_ttl_seconds t0 = (none, c1))
    (hp : primary_go chain.run 0 maxR t0 none = ⟨.success r, ptr, psl, pt⟩) :
    invoke_with_retry chain fbRun p s maxR c t0 =
      ⟨cache_key p, .ok r, ptr, psl,
        cache_put c1 (cache_key p) r s.cache_ttl_seconds pt, pt⟩ := by
  simp only [invoke_with_retry, hlook, hp]

theorem invoke_miss_praised (chain : Chain) (fbRun : FallbackRun) (p : Params)
    (s : Settings) (maxR : Nat) (c : Cache) (t0 : ℚ) (c1 : Cache) (e : String)
    (ptr : List Attempt) (psl : List ℚ) (pt : ℚ)
    (hlook : cache_get c (cache_key p) s.cache_ttl_seconds t0 = (none, c1))
    (hp : primary_go chain.run 0 maxR t0 none = ⟨.raised e, ptr, psl, pt⟩) :
    invoke_with_retry chain fbRun p s maxR c t0 =
      ⟨cache_key p, .error (some e), ptr, psl, c1, pt⟩ := by
  simp only [invoke_with_retry, hlook, hp]

theorem invoke_miss_fb_success (chain : Chain) (fbRun : FallbackRun) (p : Params)
    (s : Settings) (maxR : Nat) (c : Cache) (t0 : ℚ) (c1 : Cache)
    (le : Option String) (ptr : List Attempt) (psl : List ℚ) (pt : ℚ)
    (r : String) (ftr : List Attempt) (fsl : List ℚ) (ft : ℚ)
    (hlook : cache_get c (cache_key p) s.cache_ttl_seconds t0 = (none, c1))
    (hp : primary_go chain.run 0 maxR t0 none = ⟨.toFallback le, ptr, psl, pt⟩)
    (hf : fallback_go (fbRun chain.template) (get_fallback_models s) pt le =
      ⟨.success r, ftr, fsl, ft⟩) :
    invoke_with_retry chain fbRun p s maxR c t0 =
      ⟨cache_key p, .ok r, ptr ++ ftr, psl ++ fsl,
        cache_put c1 (cache_key p) r s.cache_ttl_seconds ft, ft⟩ := by
  simp only [invoke_with_retry, hlook, hp, hf]

theorem invoke_miss_fb_raised (chain : Chain) (fbRun : FallbackRun) (p : Params)
    (s : Settings) (maxR : Nat) (c : Cache) (t0 : ℚ) (c1 : Cache)
    (le : Option String) (ptr : List Attempt) (psl : List ℚ) (pt : ℚ)
    (e : String) (ftr : List Attempt) (fsl : List ℚ) (ft : ℚ)
    (hlook : cache_get c (cache_key p) s.cache_ttl_seconds t0 = (none, c1))
    (hp : primary_go chain.run 0 maxR t0 none = ⟨.toFallback le, ptr, psl, pt⟩)
    (hf : fallback_go (fbRun chain.template) (get_fallback_models s) pt le =
      ⟨.raised e, ftr, fsl, ft⟩) :
    invoke_with_retry chain fbRun p s maxR c t0 =
      ⟨cache_key p, .error (some e), ptr ++ ftr, psl ++ fsl, c1, ft⟩ := by
  simp only [invoke_with_retry, hlook, hp, hf]

theorem invoke_miss_fb_exhausted (chain : Chain) (fbRun : FallbackRun) (p : Params)
    (s : Settings) (maxR : Nat) (c : Cache) (t0 : ℚ) (c1 : Cache)
    (le : Option String) (ptr : List Attempt) (psl : List ℚ) (pt : ℚ)
    (le2 : Option String) (ftr : List Attempt) (fsl : List ℚ) (ft : ℚ)
    (hlook : cache_get c (cache_key p) s.cache_ttl_seconds t0 = (none, c1))
    (hp : primary_go chain.run 0 maxR t0 none = ⟨.toFallback le, ptr, psl, pt⟩)
    (hf : fallback_go (fbRun chain.template) (get_fallback_models s) pt le =
      ⟨.exhausted le2, ftr, fsl, ft⟩) :
    invoke_with_retry chain fbRun p s maxR c t0 =
      ⟨cache_key p, .error le2, ptr ++ ftr, psl ++ fsl, c1, ft⟩ := by
  simp only [invoke_with_retry, hlook, hp, hf]

/-! ### Primary-loop characterizations -/

/-- A rate-limit message that is not daily-classified. -/
theorem rate_false_daily_false (e : String) (h : is_rate_limit e = false) :
    is_daily_limit e = false := by
  simp [is_daily_limit, h]

/-- A daily-limit error on the first attempt ends the primary loop at
once: one attempt, no sleep, `last_error` set. -/
theorem primary_go_daily_first (run : Nat → Except String String) (r : Nat) (t : ℚ)
    (le : Option String) (e : String) (h0 : run 0 = .error e)
    (hd : is_daily_limit e = true) :
    primary_go run 0 (r + 1) t le = ⟨.toFallback (some e), [.primary 0], [], t⟩ := by
  simp [primary_go, h0, hd]

/-- When every attempt raises a rate-classified error, the primary loop
always ends in the fallback hand-off, and its trace holds primary
attempts only. -/
theorem primary_go_allRate (run : Nat → Except String String)
    (hall : ∀ n, ∃ e, run n = .error e ∧ is_rate_limit e = true) :
    ∀ (r i : Nat) (t : ℚ) (le : Option String), ∃ le2 tr sl t2,
      primary_go run i r t le = ⟨.toFallback le2, tr, sl, t2⟩ ∧
      (∀ a ∈ tr, ∃ j, a = Attempt.primary j) := by
  intro r
  induction r with
  | zero =>
    intro i t le
    exact ⟨le, [], [], t, by simp [primary_go], by simp⟩
  | succ r ih =>
    intro i t le
    obtain ⟨e, he, hrate⟩ := hall i
    by_cases hd : is_daily_limit e = true
    · exact ⟨some e, [.primary i], [], t, by simp [primary_go, he, hd], by simp⟩
    · obtain ⟨le2, tr, sl, t2, heq, htr⟩ := ih (i + 1) (t + 2 ^ i) (some e)
      refine ⟨le2, .primary i :: tr, (2:ℚ) ^ i :: sl, t2, ?_, ?_⟩
      · simp [primary_go, he, hd, hrate, heq]
      · intro a ha
        rcases List.mem_cons.mp ha with h | h
        · exact ⟨i, h⟩
        · exact htr a h

/-! ### Fallback-walk characterizations -/

/-- The fallback walk only records fallback attempts, and only sleeps
the fixed 1-second courtesy pause. -/
theorem fallback_go_shape (run : String → Except String String) :
    ∀ (l : List String) (t : ℚ) (le : Option String),
      (∀ a ∈ (fallback_go run l t le).trace, ∃ m, a = Attempt.fallback m) ∧
      (∀ w ∈ (fallback_go run l t le).sleeps, w = (1:ℚ)) := by
  intro l
  induction l with
  | nil => intro t le; simp [fallback_go]
  | cons m rest ih =>
    intro t le
    cases hrun : run m with
    | ok r => simp [fallback_go, hrun]
    | error e =>
      by_cases hcls : (is_rate_limit e || is_model_unavailable e) = true
      · have hrec := ih (t + 1) (some e)
        constructor
        · intro a ha
          simp only [fallback_go, hrun, hcls, if_true, List.mem_cons] at ha
          rcases ha with rfl | ha
          · exact ⟨m, rfl⟩
          · exact hrec.1 a ha
        · intro w hw
          simp only [fallback_go, hrun, hcls, if_true, List.mem_cons] at hw
          rcases hw with rfl | hw
          · rfl
          · exact hrec.2 w hw
      · constructor
        · intro a ha
          simp only [fallback_go, hrun, hcls] at ha
          simp at ha
          exact ⟨m, ha⟩
        · intro w hw
          simp only [fallback_go, hrun, hcls] at hw
          simp at hw

/-- A prefix of continue-classified failures contributes its attempts,
its 1-second pauses and an updated `last_error`; the walk then
continues with the remaining models. -/
theorem fallback_go_seg (run : String → Except String String) :
    ∀ (l1 rest : List String) (t : ℚ) (le : Option String),
      (∀ m ∈ l1, ∃ e, run m = .error e ∧
        (is_rate_limit e || is_model_unavailable e) = true) →
      ∃ le2,
        fallback_go run (l1 ++ rest) t le =
          ⟨(fallback_go run rest (t + l1.length) le2).kind,
            l1.map Attempt.fallback ++ (fallback_go run rest (t + l1.length) le2).trace,
            List.replicate l1.length 1 ++ (fallback_go run rest (t + l1.length) le2).sleeps,
            (fallback_go run rest (t + l1.length) le2).endT⟩ := by
  intro l1
  induction l1 with
  | nil =>
    intro rest t le _
    exact ⟨le, by simp⟩
  | cons m l1 ih =>
    intro rest t le hall
    obtain ⟨e, he, hcls⟩ := hall m (by simp)
    obtain ⟨le2, heq⟩ := ih rest (t + 1) (some e) (fun x hx => hall x (by simp [hx]))
    refine ⟨le2, ?_⟩
    have harg : (t + 1) + (l1.length : ℚ) = t + ((m :: l1).length : ℚ) := by
      push_cast [List.length_cons]; ring
    rw [harg] at heq
    simp [fallback_go, he, hcls, heq, List.replicate_succ]

/-- When every fallback model fails with a continue-classified error,
the walk exhausts the list and ends with the **last** model's error as
`last_error`. -/
theorem fallback_go_allFail (run : String → Except String String) :
    ∀ (l : List String) (hne : l ≠ []) (t : ℚ) (le : Option String),
      (∀ m ∈ l, ∃ e, run m = .error e ∧
        (is_rate_limit e || is_model_unavailable e) = true) →
      ∃ e, run (l.getLast hne) = .error e ∧
        ∃ sl t2, fallback_go run l t le =
          ⟨.exhausted (some e), l.map Attempt.fallback, sl, t2⟩ := by
  intro l
  induction l with
  | nil => intro hne; exact absurd rfl hne
  | cons m rest ih =>
    intro hne t le hall
    obtain ⟨e, he, hcls⟩ := hall m (by simp)
    by_cases hr : rest = []
    · subst hr
      refine ⟨e, by simpa [List.getLast] using he, [1], t + 1, ?_⟩
      simp [fallback_go, he, hcls]
    · obtain ⟨e2, he2, sl, t2, heq⟩ :=
        ih hr (t + 1) (some e) (fun x hx => hall x (by simp [hx]))
      refine ⟨e2, ?_, 1 :: sl, t2, ?_⟩
      · rwa [List.getLast_cons hr]
      · simp [fallback_go, he, hcls, heq]

/-- Combined dispatch: on a cache miss whose primary phase hands off to
the fallback walk, the invoker's attempt trace and sleeps extend the
walk's, whatever the walk's outcome. -/
theorem invoke_trace_sleeps_toFallback (chain : Chain) (fbRun : FallbackRun)
    (p : Params) (s : Settings) (maxR : Nat) (c : Cache) (t0 : ℚ) (c1 : Cache)
    (le : Option String) (ptr : List Attempt) (psl : List ℚ) (pt : ℚ)
    (hlook : cache_get c (cache_key p) s.cache_ttl_seconds t0 = (none, c1))
    (hp : primary_go chain.run 0 maxR t0 none = ⟨.toFallback le, ptr, psl, pt⟩) :
    (invoke_with_retry chain fbRun p s maxR c t0).trace =
      ptr ++ (fallback_go (fbRun chain.template) (get_fallback_models s) pt le).trace ∧
    (invoke_with_retry chain fbRun p s maxR c t0).sleeps =
      psl ++ (fallback_go (fbRun chain.template) (get_fallback_models s) pt le).sleeps := by
  cases hfb : fallback_go (fbRun chain.template) (get_fallback_models s) pt le with
  | mk fk ftr fsl ft =>
    cases fk with
    | success r =>
      rw [invoke_miss_fb_success chain fbRun p s maxR c t0 c1 le ptr psl pt r ftr fsl ft
        hlook hp hfb]
      exact ⟨rfl, rfl⟩
    | raised e =>
      rw [invoke_miss_fb_raised chain fbRun p s maxR c t0 c1 le ptr psl pt e ftr fsl ft
        hlook hp hfb]
      exact ⟨rfl, rfl⟩
    | exhausted le2 =>
      rw [invoke_miss_fb_exhausted chain fbRun p s maxR c t0 c1 le ptr psl pt le2 ftr fsl ft
        hlook hp hfb]
      exact ⟨rfl, rfl⟩

/-! ### Claim theorems -/

/-- **C7**: a cache entry inserted at time `T` under a TTL `ttl > 0` is
returned by a `get` at any time strictly before `T + ttl`; a `get` at
any time at least `T + ttl + ε` (for `ε > 0`) reports the entry absent
and removes it from the cache on that very access (lazy expiry). -/
theorem C7_ttl_expiry (c : Cache) (key v : String) (T ttl : ℚ) (httl : 0 < ttl) :
    (∀ t : ℚ, t < T + ttl →
      (cache_get (cache_put c key v ttl T) key ttl t).1 = some v) ∧
    (∀ t ε : ℚ, 0 < ε → T + ttl + ε ≤ t →
      (cache_get (cache_put c key v ttl T) key ttl t).1 = none ∧
      cacheLookup (cache_get (cache_put c key v ttl T) key ttl t).2 key = none) := by
  have hnle : ¬ ttl ≤ 0 := not_le.mpr httl
  have hput : cache_put c key v ttl T = cacheSet c key T v := by
    simp [cache_put, httl]
  constructor
  · intro t ht
    have hfresh : ¬ (t - T > ttl) := by linarith
    simp [hput, cache_get, hnle, cacheLookup_set, hfresh]
  · intro t ε hε hT
    have hexp : t - T > ttl := by linarith
    constructor
    · simp [hput, cache_get, hnle, cacheLookup_set, hexp]
    · simp [hput, cache_get, hnle, cacheLookup_set, hexp, cacheLookup_erase]

/-- Witness for C7: insertion at time 0 with TTL 300 is present at
time 10 and absent (ε = 1) at time 301. -/
theorem C7_ttl_expiry_witness :
    (cache_get (cache_put [] "k" "resp" 300 0) "k" 300 10).1 = some "resp" ∧
    (cache_get (cache_put [] "k" "resp" 300 0) "k" 300 301).1 = none := by
  refine ⟨(C7_ttl_expiry [] "k" "resp" 0 300 (by norm_num)).1 10 (by norm_num),
    ((C7_ttl_expiry [] "k" "resp" 0 300 (by norm_num)).2 301 1 (by norm_num) (by norm_num)).1⟩

/-- **C2**: when every primary-model attempt raises a
daily-quota-classified error, the invoker makes exactly one primary
attempt (the trace starts `primary 0` and its tail holds only fallback
attempts), performs no exponential-backoff sleep (every sleep performed
is the fallback walk's fixed 1-second pause), and proceeds directly to
the configured fallback list. -/
theorem C2_daily_quota_short_circuit (chain : Chain) (fbRun : FallbackRun)
    (p : Params) (s : Settings) (maxR : Nat) (c : Cache) (t0 : ℚ)
    (hmaxR : 0 < maxR)
    (hmiss : (cache_get c (cache_key p) s.cache_ttl_seconds t0).1 = none)
    (hdaily : ∀ n, ∃ e, chain.run n = .error e ∧ is_daily_limit e = true) :
    ∃ e0, chain.run 0 = .error e0 ∧
      (invoke_with_retry chain fbRun p s maxR c t0).trace =
        .primary 0 ::
          (fallback_go (fbRun chain.template) (get_fallback_models s) t0 (some e0)).trace ∧
      (invoke_with_retry chain fbRun p s maxR c t0).sleeps =
        (fallback_go (fbRun chain.template) (get_fallback_models s) t0 (some e0)).sleeps ∧
      (∀ a ∈ ((invoke_with_retry chain fbRun p s maxR c t0).trace).tail,
        ∃ m, a = Attempt.fallback m) ∧
      (∀ w ∈ (invoke_with_retry chain fbRun p s maxR c t0).sleeps, w = (1:ℚ)) := by
  obtain ⟨e0, he, hd⟩ := hdaily 0
  obtain ⟨r, rfl⟩ : ∃ r, maxR = r + 1 := ⟨maxR - 1, (Nat.succ_pred_eq_of_pos hmaxR).symm⟩
  have hp := primary_go_daily_first chain.run r t0 none e0 he hd
  have hpair : cache_get c (cache_key p) s.cache_ttl_seconds t0 =
      (none, (cache_get c (cache_key p) s.cache_ttl_seconds t0).2) := by
    rw [← hmiss]
  obtain ⟨htr, hsl⟩ := invoke_trace_sleeps_toFallback chain fbRun p s (r + 1) c t0 _
    (some e0) [.primary 0] [] t0 hpair hp
  have hshape := fallback_go_shape (fbRun chain.template) (get_fallback_models s) t0 (some e0)
  refine ⟨e0, he, by simpa using htr, by simpa using hsl, ?_, ?_⟩
  · intro a ha
    rw [htr] at ha
    exact hshape.1 a (by simpa using ha)
  · intro w hw
    rw [hsl] at hw
    exact hshape.2 w (by simpa using hw)

/-- Witness for C2: a concrete daily-quota error on a primary model
with two fallbacks, the first rate-limited and the second succeeding. -/
theorem C2_daily_quota_short_circuit_witness :
    ∃ e0, (fun _ : Nat => (Except.error "429 rate limit: tokens per day (TPD) exceeded"
        : Except String String)) 0 = .error e0 ∧
      (invoke_with_retry
        ⟨"INTENT", fun _ => .error "429 rate limit: tokens per day (TPD) exceeded"⟩
        (fun _ m => if m = "fb1" then .error "429 rate limit" else .ok "answer")
        [("query", .pstr "q")] ⟨300, "fb1,fb2"⟩ 3 [] 0).trace =
        .primary 0 ::
          (fallback_go
            ((fun _ m => if m = "fb1" then .error "429 rate limit" else .ok "answer") "INTENT")
            (get_fallback_models ⟨300, "fb1,fb2"⟩) 0 (some e0)).trace ∧
      (invoke_with_retry
        ⟨"INTENT", fun _ => .error "429 rate limit: tokens per day (TPD) exceeded"⟩
        (fun _ m => if m = "fb1" then .error "429 rate limit" else .ok "answer")
        [("query", .pstr "q")] ⟨300, "fb1,fb2"⟩ 3 [] 0).sleeps =
        (fallback_go
          ((fun _ m => if m = "fb1" then .error "429 rate limit" else .ok "answer") "INTENT")
          (get_fallback_models ⟨300, "fb1,fb2"⟩) 0 (some e0)).sleeps ∧
      (∀ a ∈ ((invoke_with_retry
        ⟨"INTENT", fun _ => .error "429 rate limit: tokens per day (TPD) exceeded"⟩
        (fun _ m => if m = "fb1" then .error "429 rate limit" else .ok "answer")
        [("query", .pstr "q")] ⟨300, "fb1,fb2"⟩ 3 [] 0).trace).tail,
        ∃ m, a = Attempt.fallback m) ∧
      (∀ w ∈ (invoke_with_retry
        ⟨"INTENT", fun _ => .error "429 rate limit: tokens per day (TPD) exceeded"⟩
        (fun _ m => if m = "fb1" then .error "429 rate limit" else .ok "answer")
        [("query", .pstr "q")] ⟨300, "fb1,fb2"⟩ 3 [] 0).sleeps, w = (1:ℚ)) :=
  C2_daily_quota_short_circuit
    ⟨"INTENT", fun _ => .error "429 rate limit: tokens per day (TPD) exceeded"⟩
    (fun _ m => if m = "fb1" then .error "429 rate limit" else .ok "answer")
    [("query", .pstr "q")] ⟨300, "fb1,fb2"⟩ 3 [] 0 (by norm_num) (by decide)
    (fun n => ⟨"429 rate limit: tokens per day (TPD) exceeded", rfl, by decide⟩)

/-- **C1 (amended)**: the cache key the invoker uses is a pure function
of the canonicalized invocation parameters alone — the stage template
(and every other input) does not enter it, so for one fixed template
the key is a pure function of the canonicalized parameters, and calls
with byte-identical parameter mappings share one key even across
different stage templates. -/
theorem C1_cache_key_pure_of_params (chain : Chain) (fbRun : FallbackRun)
    (p q : Params) (s : Settings) (maxR : Nat) (c : Cache) (t0 : ℚ) :
    (invoke_with_retry chain fbRun p s maxR c t0).ckey = cache_key p ∧
    (canonicalParams p = canonicalParams q → cache_key p = cache_key q) := by
  constructor
  · simp only [invoke_with_retry]
    split
    · rfl
    · split
      · rfl
      · rfl
      · split <;> rfl
  · intro h
    simp [cache_key, h]

/-- Witness for the amended C1. -/
theorem C1_cache_key_pure_of_params_witness :
    (invoke_with_retry ⟨"T", fun _ => .ok "x"⟩ (fun _ _ => .ok "y")
      [("a", .pstr "1")] ⟨300, "fb"⟩ 3 [] 0).ckey = cache_key [("a", .pstr "1")] ∧
    cache_key [("a", .pstr "1")] = cache_key [("a", .pstr "1")] :=
  ⟨(C1_cache_key_pure_of_params ⟨"T", fun _ => .ok "x"⟩ (fun _ _ => .ok "y")
      [("a", .pstr "1")] [("a", .pstr "1")] ⟨300, "fb"⟩ 3 [] 0).1,
    (C1_cache_key_pure_of_params ⟨"T", fun _ => .ok "x"⟩ (fun _ _ => .ok "y")
      [("a", .pstr "1")] [("a", .pstr "1")] ⟨300, "fb"⟩ 3 [] 0).2 rfl⟩

/-- **C1 counterexample**: two invocations made with *different* stage
templates (distinct prompt identities and distinct network behaviours)
but byte-identical parameter mappings get the *same* cache key — the
second call returns the first template's cached response with no model
attempt, refuting the claim that the keys differ. -/
theorem C1_counterexample :
    let p : Params := [("query", .pstr "hello")]
    let s : Settings := ⟨300, "fb"⟩
    let chainA : Chain := ⟨"TEMPLATE_A", fun _ => .ok "ALPHA"⟩
    let chainB : Chain := ⟨"TEMPLATE_B", fun _ => .ok "BETA"⟩
    let r1 := invoke_with_retry chainA (fun _ _ => .ok "fba") p s 3 [] 0
    let r2 := invoke_with_retry chainB (fun _ _ => .ok "fbb") p s 3 r1.cache 1
    chainA.template ≠ chainB.template ∧ r1.ckey = r2.ckey ∧
    r2.outcome = .ok "ALPHA" ∧ r2.trace = [] := by
  intro p s chainA chainB r1 r2
  have hlook1 : cache_get ([] : Cache) (cache_key p) s.cache_ttl_seconds 0 =
      (none, ([] : Cache)) := by
    norm_num [cache_get, cacheLookup, s]
  have hp1 : primary_go chainA.run 0 3 0 none =
      ⟨.success "ALPHA", [.primary 0], [], 0⟩ := rfl
  have h1 : r1 = ⟨cache_key p, .ok "ALPHA", [.primary 0], [],
      cache_put [] (cache_key p) "ALPHA" s.cache_ttl_seconds 0, 0⟩ :=
    invoke_miss_psuccess chainA _ p s 3 [] 0 [] "ALPHA" [.primary 0] [] 0 hlook1 hp1
  have hcache1 : r1.cache = cacheSet [] (cache_key p) 0 "ALPHA" := by
    rw [h1]
    norm_num [cache_put, s]
  have hlook2 : cache_get r1.cache (cache_key p) s.cache_ttl_seconds 1 =
      (some "ALPHA", r1.cache) := by
    rw [hcache1]
    norm_num [cache_get, cacheLookup_set, s]
  have h2 : r2 = ⟨cache_key p, .ok "ALPHA", [], [], r1.cache, 1⟩ :=
    invoke_hit chainB _ p s 3 r1.cache 1 "ALPHA" r1.cache hlook2
  refine ⟨by decide, ?_, ?_, ?_⟩
  · rw [h1, h2]
  · rw [h2]
  · rw [h2]

/-- **C4**: with a positive TTL, after a first invocation that misses
the cache and succeeds on its first primary attempt, a second
invocation with the identical stage template and canonicalized
parameters within the TTL window performs no model attempt at all and
returns byte-identical text — across the two calls the underlying model
is attempted exactly once. -/
theorem C4_cache_idempotence (chain : Chain) (fb1 fb2 : FallbackRun) (p : Params)
    (s : Settings) (maxR1 maxR2 : Nat) (c : Cache) (t1 t2 : ℚ) (r : String)
    (httl : 0 < s.cache_ttl_seconds)
    (hmaxR : 0 < maxR1)
    (hmiss : (cache_get c (cache_key p) s.cache_ttl_seconds t1).1 = none)
    (hok : chain.run 0 = .ok r)
    (hwin : t2 - t1 ≤ s.cache_ttl_seconds) :
    (invoke_with_retry chain fb1 p s maxR1 c t1).outcome = .ok r ∧
    (invoke_with_retry chain fb1 p s maxR1 c t1).trace = [.primary 0] ∧
    (invoke_with_retry chain fb2 p s maxR2
      (invoke_with_retry chain fb1 p s maxR1 c t1).cache t2).outcome = .ok r ∧
    (invoke_with_retry chain fb2 p s maxR2
      (invoke_with_retry chain fb1 p s maxR1 c t1).cache t2).trace = [] ∧
    (invoke_with_retry chain fb1 p s maxR1 c t1).trace.length +
      (invoke_with_retry chain fb2 p s maxR2
        (invoke_with_retry chain fb1 p s maxR1 c t1).cache t2).trace.length = 1 := by
  obtain ⟨n, rfl⟩ : ∃ n, maxR1 = n + 1 := ⟨maxR1 - 1, (Nat.succ_pred_eq_of_pos hmaxR).symm⟩
  have hpair : cache_get c (cache_key p) s.cache_ttl_seconds t1 =
      (none, (cache_get c (cache_key p) s.cache_ttl_seconds t1).2) := by
    rw [← hmiss]
  have hp1 : primary_go chain.run 0 (n + 1) t1 none =
      ⟨.success r, [.primary 0], [], t1⟩ := by
    simp [primary_go, hok]
  have h1 := invoke_miss_psuccess chain fb1 p s (n + 1) c t1 _ r [.primary 0] [] t1
    hpair hp1
  have hcache1 : (invoke_with_retry chain fb1 p s (n + 1) c t1).cache =
      cacheSet (cache_get c (cache_key p) s.cache_ttl_seconds t1).2
        (cache_key p) t1 r := by
    rw [h1]
    simp [cache_put, httl]
  have hfresh : ¬ (t2 - t1 > s.cache_ttl_seconds) := not_lt.mpr hwin
  have hnle : ¬ s.cache_ttl_seconds ≤ 0 := not_le.mpr httl
  have hlook2 : cache_get (invoke_with_retry chain fb1 p s (n + 1) c t1).cache
      (cache_key p) s.cache_ttl_seconds t2 =
      (some r, (invoke_with_retry chain fb1 p s (n + 1) c t1).cache) := by
    rw [hcache1]
    simp [cache_get, hnle, cacheLookup_set, hfresh]
  have h2 := invoke_hit chain fb2 p s maxR2 _ t2 r _ hlook2
  refine ⟨by rw [h1], by rw [h1], by rw [h2], by rw [h2], by rw [h2, h1]; rfl⟩

/-- Witness for C4 at concrete values: first call at time 0, second at
time 100, TTL 300. -/
theorem C4_cache_idempotence_witness :
    (invoke_with_retry ⟨"T", fun _ => .ok "resp"⟩ (fun _ _ => .ok "fb")
      [("query", .pstr "q")] ⟨300, "m"⟩ 3 [] 0).outcome = .ok "resp" ∧
    (invoke_with_retry ⟨"T", fun _ => .ok "resp"⟩ (fun _ _ => .ok "fb")
      [("query", .pstr "q")] ⟨300, "m"⟩ 3 [] 0).trace = [.primary 0] ∧
    (invoke_with_retry ⟨"T", fun _ => .ok "resp"⟩ (fun _ _ => .ok "fb2")
      [("query", .pstr "q")] ⟨300, "m"⟩ 3
      (invoke_with_retry ⟨"T", fun _ => .ok "resp"⟩ (fun _ _ => .ok "fb")
        [("query", .pstr "q")] ⟨300, "m"⟩ 3 [] 0).cache 100).outcome = .ok "resp" ∧
    (invoke_with_retry ⟨"T", fun _ => .ok "resp"⟩ (fun _ _ => .ok "fb2")
      [("query", .pstr "q")] ⟨300, "m"⟩ 3
      (invoke_with_retry ⟨"T", fun _ => .ok "resp"⟩ (fun _ _ => .ok "fb")
        [("query", .pstr "q")] ⟨300, "m"⟩ 3 [] 0).cache 100).trace = [] ∧
    (invoke_with_retry ⟨"T", fun _ => .ok "resp"⟩ (fun _ _ => .ok "fb")
      [("query", .pstr "q")] ⟨300, "m"⟩ 3 [] 0).trace.length +
      (invoke_with_retry ⟨"T", fun _ => .ok "resp"⟩ (fun _ _ => .ok "fb2")
        [("query", .pstr "q")] ⟨300, "m"⟩ 3
        (invoke_with_retry ⟨"T", fun _ => .ok "resp"⟩ (fun _ _ => .ok "fb")
          [("query", .pstr "q")] ⟨300, "m"⟩ 3 [] 0).cache 100).trace.length = 1 :=
  C4_cache_idempotence ⟨"T", fun _ => .ok "resp"⟩ (fun _ _ => .ok "fb")
    (fun _ _ => .ok "fb2") [("query", .pstr "q")] ⟨300, "m"⟩ 3 3 [] 0 100 "resp"
    (by norm_num) (by norm_num) (by norm_num [cache_get, cacheLookup]) rfl (by norm_num)

/-- **C3**: with the primary model exhausted (every attempt
rate-classified) and the configured fallback list `[A, B, C]` where `A`
and `B` fail with rate-limit/unavailable-classified errors and `C`
succeeds, the invoker attempts `A`, then `B`, then `C` in exactly that
configured order after the primary attempts, attempts no model after
`C`'s success, returns `C`'s response, caches it under the original
params key, and an identical later request within the TTL window is a
pure cache hit. -/
theorem C3_fallback_ordering (chain : Chain) (fbRun fb2 : FallbackRun)
    (A B C : String) (ea eb rc : String) (p : Params) (s : Settings)
    (maxR maxR2 : Nat) (c : Cache) (t0 : ℚ)
    (httl : 0 < s.cache_ttl_seconds)
    (hmiss : (cache_get c (cache_key p) s.cache_ttl_seconds t0).1 = none)
    (hprim : ∀ n, ∃ e, chain.run n = .error e ∧ is_rate_limit e = true)
    (hfb : get_fallback_models s = [A, B, C])
    (hA : fbRun chain.template A = .error ea)
    (hAc : (is_rate_limit ea || is_model_unavailable ea) = true)
    (hB : fbRun chain.template B = .error eb)
    (hBc : (is_rate_limit eb || is_model_unavailable eb) = true)
    (hC : fbRun chain.template C = .ok rc) :
    (invoke_with_retry chain fbRun p s maxR c t0).outcome = .ok rc ∧
    (∃ ptrace, (∀ a ∈ ptrace, ∃ j, a = Attempt.primary j) ∧
      (invoke_with_retry chain fbRun p s maxR c t0).trace =
        ptrace ++ [.fallback A, .fallback B, .fallback C]) ∧
    (∃ ts, cacheLookup (invoke_with_retry chain fbRun p s maxR c t0).cache
        (cache_key p) = some (ts, rc)) ∧
    (∀ t2 : ℚ,
      t2 - (invoke_with_retry chain fbRun p s maxR c t0).endT ≤ s.cache_ttl_seconds →
      (invoke_with_retry chain fb2 p s maxR2
        (invoke_with_retry chain fbRun p s maxR c t0).cache t2).outcome = .ok rc ∧
      (invoke_with_retry chain fb2 p s maxR2
        (invoke_with_retry chain fbRun p s maxR c t0).cache t2).trace = []) := by
  have hpair : cache_get c (cache_key p) s.cache_ttl_seconds t0 =
      (none, (cache_get c (cache_key p) s.cache_ttl_seconds t0).2) := by
    rw [← hmiss]
  obtain ⟨le, ptr, psl, pt, hpeq, hptr⟩ := primary_go_allRate chain.run hprim maxR 0 t0 none
  obtain ⟨le2, hseg⟩ := fallback_go_seg (fbRun chain.template) [A, B] [C] pt le
    (by
      intro m hm
      simp only [List.mem_cons, List.not_mem_nil, or_false] at hm
      rcases hm with rfl | rfl
      · exact ⟨ea, hA, hAc⟩
      · exact ⟨eb, hB, hBc⟩)
  have hlen : (((List.length [A, B] : Nat)) : ℚ) = 2 := by norm_num
  rw [hlen] at hseg
  have hinner : fallback_go (fbRun chain.template) [C] (pt + 2) le2 =
      ⟨.success rc, [.fallback C], [], pt + 2⟩ := by
    simp [fallback_go, hC]
  rw [hinner] at hseg
  have hfb3 : fallback_go (fbRun chain.template) (get_fallback_models s) pt le =
      ⟨.success rc, [.fallback A, .fallback B, .fallback C], [1, 1], pt + 2⟩ := by
    rw [hfb]
    simpa using hseg
  have hinv := invoke_miss_fb_success chain fbRun p s maxR c t0 _ le ptr psl pt rc
    [.fallback A, .fallback B, .fallback C] [1, 1] (pt + 2) hpair hpeq hfb3
  have hput : cache_put (cache_get c (cache_key p) s.cache_ttl_seconds t0).2
      (cache_key p) rc s.cache_ttl_seconds (pt + 2) =
      cacheSet (cache_get c (cache_key p) s.cache_ttl_seconds t0).2
        (cache_key p) (pt + 2) rc := by
    simp [cache_put, httl]
  refine ⟨by rw [hinv], ⟨ptr, hptr, by rw [hinv]⟩, ?_, ?_⟩
  · refine ⟨pt + 2, ?_⟩
    rw [hinv]
    simp only [hput]
    exact cacheLookup_set _ _ _ _
  · intro t2 hwin
    rw [hinv] at hwin
    simp only at hwin
    have hlook2 : cache_get (invoke_with_retry chain fbRun p s maxR c t0).cache
        (cache_key p) s.cache_ttl_seconds t2 =
        (some rc, (invoke_with_retry chain fbRun p s maxR c t0).cache) := by
      rw [hinv]
      simp only [hput]
      simp [cache_get, not_le.mpr httl, cacheLookup_set, not_lt.mpr hwin]
    have h2 := invoke_hit chain fb2 p s maxR2 _ t2 rc _ hlook2
    exact ⟨by rw [h2], by rw [h2]⟩

/-- Witness for C3 at concrete values (projected to the response and
ordering conjuncts). -/
theorem C3_fallback_ordering_witness :
    (invoke_with_retry ⟨"T", fun _ => .error "429 too many requests"⟩
      (fun _ m => if m = "A" then .error "429 rate limit"
        else if m = "B" then .error "model was decommissioned" else .ok "C-RESULT")
      [("query", .pstr "q")] ⟨300, "A,B,C"⟩ 3 [] 0).outcome = .ok "C-RESULT" ∧
    (∃ ptrace, (∀ a ∈ ptrace, ∃ j, a = Attempt.primary j) ∧
      (invoke_with_retry ⟨"T", fun _ => .error "429 too many requests"⟩
        (fun _ m => if m = "A" then .error "429 rate limit"
          else if m = "B" then .error "model was decommissioned" else .ok "C-RESULT")
        [("query", .pstr "q")] ⟨300, "A,B,C"⟩ 3 [] 0).trace =
          ptrace ++ [.fallback "A", .fallback "B", .fallback "C"]) := by
  have h := C3_fallback_ordering ⟨"T", fun _ => .error "429 too many requests"⟩
    (fun _ m => if m = "A" then .error "429 rate limit"
      else if m = "B" then .error "model was decommissioned" else .ok "C-RESULT")
    (fun _ _ => .ok "unused") "A" "B" "C" "429 rate limit" "model was decommissioned"
    "C-RESULT" [("query", .pstr "q")] ⟨300, "A,B,C"⟩ 3 3 [] 0
    (by norm_num) (by norm_num [cache_get, cacheLookup])
    (fun n => ⟨"429 too many requests", rfl, by decide⟩)
    (by decide) rfl (by decide) rfl (by decide) rfl
  exact ⟨h.1, h.2.1⟩

/-- **C5**: when the primary model is exhausted by rate-classified
failures and every configured fallback model fails with a
rate-limit/quota/unavailable-classified error, `invoke` raises, and the
raised error is the last one observed — the error of the **last**
fallback attempted. -/
theorem C5_exhaustion_raises_last_error (chain : Chain) (fbRun : FallbackRun)
    (p : Params) (s : Settings) (maxR : Nat) (c : Cache) (t0 : ℚ)
    (hmiss : (cache_get c (cache_key p) s.cache_ttl_seconds t0).1 = none)
    (hprim : ∀ n, ∃ e, chain.run n = .error e ∧ is_rate_limit e = true)
    (hne : get_fallback_models s ≠ [])
    (hfail : ∀ m ∈ get_fallback_models s, ∃ e, fbRun chain.template m = .error e ∧
      (is_rate_limit e || is_model_unavailable e) = true) :
    ∃ elast, fbRun chain.template ((get_fallback_models s).getLast hne) = .error elast ∧
      (invoke_with_retry chain fbRun p s maxR c t0).outcome = .error (some elast) := by
  have hpair : cache_get c (cache_key p) s.cache_ttl_seconds t0 =
      (none, (cache_get c (cache_key p) s.cache_ttl_seconds t0).2) := by
    rw [← hmiss]
  obtain ⟨le, ptr, psl, pt, hpeq, _⟩ := primary_go_allRate chain.run hprim maxR 0 t0 none
  obtain ⟨elast, hlast, sl, t2, heqf⟩ := fallback_go_allFail (fbRun chain.template)
    (get_fallback_models s) hne pt le hfail
  have hinv := invoke_miss_fb_exhausted chain fbRun p s maxR c t0 _ le ptr psl pt
    (some elast) _ sl t2 hpair hpeq heqf
  exact ⟨elast, hlast, by rw [hinv]⟩

/-- Witness for C5: fallbacks `[A, B]` failing with distinct errors;
the raised error is `B`'s (the last), not `A`'s (the first). -/
theorem C5_exhaustion_raises_last_error_witness :
    ∃ elast, (fun _ m => if m = "A" then (.error "429 rate limit on A" : Except String String)
        else .error "model B was decommissioned") "T" ((get_fallback_models ⟨300, "A,B"⟩).getLast
          (by decide)) = .error elast ∧
      (invoke_with_retry ⟨"T", fun _ => .error "429 too many requests"⟩
        (fun _ m => if m = "A" then .error "429 rate limit on A"
          else .error "model B was decommissioned")
        [("query", .pstr "q")] ⟨300, "A,B"⟩ 3 [] 0).outcome = .error (some elast) :=
  C5_exhaustion_raises_last_error ⟨"T", fun _ => .error "429 too many requests"⟩
    (fun _ m => if m = "A" then .error "429 rate limit on A"
      else .error "model B was decommissioned")
    [("query", .pstr "q")] ⟨300, "A,B"⟩ 3 [] 0
    (by norm_num [cache_get, cacheLookup])
    (fun n => ⟨"429 too many requests", rfl, by decide⟩)
    (by decide)
    (by
      intro m hm
      have hfbw : get_fallback_models ⟨300, "A,B"⟩ = ["A", "B"] := by decide
      rw [hfbw] at hm
      have : m = "A" ∨ m = "B" := by simpa using hm
      rcases this with rfl | rfl
      · exact ⟨"429 rate limit on A", rfl, by decide⟩
      · exact ⟨"model B was decommissioned", rfl, by decide⟩)

/-- Prepending `f i` to a shifted range map extends the range. -/
theorem range_map_shift {α : Type} (f : Nat → α) (i n : Nat) :
    f i :: (List.range n).map (fun y => f ((i + 1) + y)) =
      (List.range (n + 1)).map (fun y => f (i + y)) := by
  rw [List.range_succ_eq_map, List.map_cons, List.map_map]
  have h1 : f (i + 0) = f i := by rw [Nat.add_zero]
  have h2 : (List.range n).map ((fun y => f (i + y)) ∘ Nat.succ) =
      (List.range n).map (fun y => f ((i + 1) + y)) := by
    apply List.map_congr_left
    intro y _
    simp only [Function.comp_apply]
    congr 1
    omega
  rw [h1, h2]

/-- The primary loop with `d` leading transient rate-limit failures
(none daily-classified) and a non-rate-classified failure on attempt
`d` re-raises that failure at once: exactly attempts `0 .. d` are made,
every backoff sleep precedes the fatal attempt, and the loop never
hands off to the fallbacks. -/
theorem primary_go_prefix_fatal (run : Nat → Except String String) :
    ∀ (d i r : Nat) (t : ℚ) (le : Option String) (ef : String),
      (∀ x, x < d → ∃ e, run (i + x) = .error e ∧ is_rate_limit e = true ∧
        is_daily_limit e = false) →
      run (i + d) = .error ef → is_rate_limit ef = false → d < r →
      ∃ t2, primary_go run i r t le =
        ⟨.raised ef, (List.range (d + 1)).map (fun x => Attempt.primary (i + x)),
          (List.range d).map (fun x => (2:ℚ) ^ (i + x)), t2⟩ := by
  intro d
  induction d with
  | zero =>
    intro i r t le ef _ hf hnr hr
    obtain ⟨r2, rfl⟩ : ∃ r2, r = r2 + 1 := ⟨r - 1, (Nat.succ_pred_eq_of_pos hr).symm⟩
    refine ⟨t, ?_⟩
    have hf0 : run i = .error ef := by simpa using hf
    have hnd : is_daily_limit ef = false := rate_false_daily_false ef hnr
    have hr1 : List.range 1 = [0] := rfl
    simp [primary_go, hf0, hnd, hnr, hr1]
  | succ x ih =>
    intro i r t le ef hpre hf hnr hr
    obtain ⟨r2, rfl⟩ : ∃ r2, r = r2 + 1 :=
      ⟨r - 1, (Nat.succ_pred_eq_of_pos (lt_of_le_of_lt (Nat.zero_le (x + 1)) hr)).symm⟩
    obtain ⟨e0, he0, hrate0, hdaily0⟩ := hpre 0 (Nat.succ_pos x)
    rw [Nat.add_zero] at he0
    have hpre2 : ∀ y, y < x → ∃ e, run ((i + 1) + y) = .error e ∧
        is_rate_limit e = true ∧ is_daily_limit e = false := by
      intro y hy
      obtain ⟨e, he, h1, h2⟩ := hpre (y + 1) (Nat.succ_lt_succ hy)
      have harg : (i + 1) + y = i + (y + 1) := by omega
      exact ⟨e, by rw [harg]; exact he, h1, h2⟩
    have hf2 : run ((i + 1) + x) = .error ef := by
      have harg : (i + 1) + x = i + (x + 1) := by omega
      rw [harg]; exact hf
    have hr2 : x < r2 := by omega
    obtain ⟨t2, hrec⟩ := ih (i + 1) r2 (t + 2 ^ i) (some e0) ef hpre2 hf2 hnr hr2
    refine ⟨t2, ?_⟩
    have hstep : primary_go run i (r2 + 1) t le =
        ⟨(primary_go run (i + 1) r2 (t + 2 ^ i) (some e0)).kind,
          .primary i :: (primary_go run (i + 1) r2 (t + 2 ^ i) (some e0)).trace,
          (2:ℚ) ^ i :: (primary_go run (i + 1) r2 (t + 2 ^ i) (some e0)).sleeps,
          (primary_go run (i + 1) r2 (t + 2 ^ i) (some e0)).endT⟩ := by
      simp [primary_go, he0, hdaily0, hrate0]
    rw [hstep, hrec]
    have htr := range_map_shift (fun j => Attempt.primary j) i (x + 1)
    have hsl := range_map_shift (fun j => (2:ℚ) ^ j) i x
    simp only at htr hsl
    rw [htr, hsl]

/-- **C6**: (a) a primary-attempt failure that is not rate-classified
is re-raised at once — no further primary attempt, no backoff sleep
after it, and no fallback model is consulted; (b) a fallback-attempt
failure that is neither rate-classified nor unavailable-classified is
re-raised at once, abandoning every remaining fallback model. -/
theorem C6_fatal_errors_propagate (chain : Chain) (fbRun : FallbackRun) (p : Params)
    (s : Settings) (maxR : Nat) (c : Cache) (t0 : ℚ) (k : Nat) (ef : String)
    (l1 l2 : List String) (m em : String) :
    ((cache_get c (cache_key p) s.cache_ttl_seconds t0).1 = none →
      (∀ x, x < k → ∃ e, chain.run x = .error e ∧ is_rate_limit e = true ∧
        is_daily_limit e = false) →
      chain.run k = .error ef → is_rate_limit ef = false → k < maxR →
      (invoke_with_retry chain fbRun p s maxR c t0).outcome = .error (some ef) ∧
      (invoke_with_retry chain fbRun p s maxR c t0).trace =
        (List.range (k + 1)).map Attempt.primary ∧
      (invoke_with_retry chain fbRun p s maxR c t0).sleeps =
        (List.range k).map (fun x => (2:ℚ) ^ x)) ∧
    ((cache_get c (cache_key p) s.cache_ttl_seconds t0).1 = none →
      (∀ n, ∃ e, chain.run n = .error e ∧ is_rate_limit e = true) →
      get_fallback_models s = l1 ++ m :: l2 →
      (∀ x ∈ l1, ∃ e, fbRun chain.template x = .error e ∧
        (is_rate_limit e || is_model_unavailable e) = true) →
      fbRun chain.template m = .error em →
      (is_rate_limit em || is_model_unavailable em) = false →
      (invoke_with_retry chain fbRun p s maxR c t0).outcome = .error (some em) ∧
      ∃ ptrace, (∀ a ∈ ptrace, ∃ j, a = Attempt.primary j) ∧
        (invoke_with_retry chain fbRun p s maxR c t0).trace =
          ptrace ++ l1.map Attempt.fallback ++ [.fallback m]) := by
  constructor
  · intro hmiss hpre hf hnr hk
    have hpair : cache_get c (cache_key p) s.cache_ttl_seconds t0 =
        (none, (cache_get c (cache_key p) s.cache_ttl_seconds t0).2) := by
      rw [← hmiss]
    obtain ⟨t2, hp⟩ := primary_go_prefix_fatal chain.run k 0 maxR t0 none ef
      (by intro x hx; simpa using hpre x hx) (by simpa using hf) hnr hk
    have hinv := invoke_miss_praised chain fbRun p s maxR c t0 _ ef
      ((List.range (k + 1)).map (fun x => Attempt.primary (0 + x)))
      ((List.range k).map (fun x => (2:ℚ) ^ (0 + x))) t2 hpair hp
    refine ⟨by rw [hinv], ?_, ?_⟩
    · rw [hinv]
      simp
    · rw [hinv]
      simp
  · intro hmiss hprim hfb hl1 hm hnm
    have hpair : cache_get c (cache_key p) s.cache_ttl_seconds t0 =
        (none, (cache_get c (cache_key p) s.cache_ttl_seconds t0).2) := by
      rw [← hmiss]
    obtain ⟨le, ptr, psl, pt, hpeq, hptr⟩ :=
      primary_go_allRate chain.run hprim maxR 0 t0 none
    obtain ⟨le2, hseg⟩ := fallback_go_seg (fbRun chain.template) l1 (m :: l2) pt le hl1
    have hinner : fallback_go (fbRun chain.template) (m :: l2)
        (pt + l1.length) le2 =
        ⟨.raised em, [.fallback m], [], pt + l1.length⟩ := by
      simp [fallback_go, hm, hnm]
    rw [hinner] at hseg
    have hfb3 : fallback_go (fbRun chain.template) (get_fallback_models s) pt le =
        ⟨.raised em, l1.map Attempt.fallback ++ [.fallback m],
          List.replicate l1.length 1, pt + l1.length⟩ := by
      rw [hfb]
      simpa using hseg
    have hinv := invoke_miss_fb_raised chain fbRun p s maxR c t0 _ le ptr psl pt em
      (l1.map Attempt.fallback ++ [.fallback m]) (List.replicate l1.length 1)
      (pt + l1.length) hpair hpeq hfb3
    refine ⟨by rw [hinv], ptr, hptr, ?_⟩
    rw [hinv, List.append_assoc]

/-- Witness for C6: (a) a fatal authentication error on primary attempt
1 after one transient 429, with no fallback consulted; (b) a fatal
error on fallback `B` abandoning the remaining fallback `C`. -/
theorem C6_fatal_errors_propagate_witness :
    ((invoke_with_retry
      ⟨"T", fun n => if n = 0 then .error "429 rate limit" else .error "invalid api key"⟩
      (fun _ _ => .ok "unused") [("query", .pstr "q")] ⟨300, "A,B,C"⟩ 3 [] 0).outcome =
        .error (some "invalid api key") ∧
      (invoke_with_retry
        ⟨"T", fun n => if n = 0 then .error "429 rate limit" else .error "invalid api key"⟩
        (fun _ _ => .ok "unused") [("query", .pstr "q")] ⟨300, "A,B,C"⟩ 3 [] 0).trace =
          (List.range 2).map Attempt.primary ∧
      (invoke_with_retry
        ⟨"T", fun n => if n = 0 then .error "429 rate limit" else .error "invalid api key"⟩
        (fun _ _ => .ok "unused") [("query", .pstr "q")] ⟨300, "A,B,C"⟩ 3 [] 0).sleeps =
          (List.range 1).map (fun x => (2:ℚ) ^ x)) ∧
    ((invoke_with_retry ⟨"T", fun _ => .error "429 too many requests"⟩
      (fun _ m => if m = "A" then .error "429 rate limit on A"
        else .error "connection reset by peer")
      [("query", .pstr "q")] ⟨300, "A,B,C"⟩ 3 [] 0).outcome =
        .error (some "connection reset by peer") ∧
      ∃ ptrace, (∀ a ∈ ptrace, ∃ j, a = Attempt.primary j) ∧
        (invoke_with_retry ⟨"T", fun _ => .error "429 too many requests"⟩
          (fun _ m => if m = "A" then .error "429 rate limit on A"
            else .error "connection reset by peer")
          [("query", .pstr "q")] ⟨300, "A,B,C"⟩ 3 [] 0).trace =
            ptrace ++ ["A"].map Attempt.fallback ++ [.fallback "B"]) := by
  constructor
  · exact (C6_fatal_errors_propagate
      ⟨"T", fun n => if n = 0 then .error "429 rate limit" else .error "invalid api key"⟩
      (fun _ _ => .ok "unused") [("query", .pstr "q")] ⟨300, "A,B,C"⟩ 3 [] 0 1
      "invalid api key" [] [] "" "").1
      (by norm_num [cache_get, cacheLookup])
      (by
        intro x hx
        have hx0 : x = 0 := by omega
        subst hx0
        exact ⟨"429 rate limit", rfl, by decide, by decide⟩)
      rfl (by decide) (by norm_num)
  · exact (C6_fatal_errors_propagate ⟨"T", fun _ => .error "429 too many requests"⟩
      (fun _ m => if m = "A" then .error "429 rate limit on A"
        else .error "connection reset by peer")
      [("query", .pstr "q")] ⟨300, "A,B,C"⟩ 3 [] 0 0 "" ["A"] ["C"] "B"
      "connection reset by peer").2
      (by norm_num [cache_get, cacheLookup])
      (fun n => ⟨"429 too many requests", rfl, by decide⟩)
      (by decide)
      (by
        intro x hx
        have hx0 : x = "A" := by simpa using hx
        subst hx0
        exact ⟨"429 rate limit on A", rfl, by decide⟩)
      rfl (by decide)

/-- **C8**: for every stage (intent, discovery, query-generation,
trust/validation, analysis) and every input, if the underlying model
invocation raises, the stage's run function does not propagate the
failure: it returns an `AgentResult` with `status = "error"` whose data
payload and message carry the error text. -/
theorem C8_stage_error_containment (chain : Chain) (fbRun : FallbackRun) (s : Settings)
    (cache : Cache) (t0 : ℚ)
    (query schema_context kg_context user_query sql numeric_summary : String)
    (intent discovery : Json) (result_data : List Row) (e : Option String) :
    ((invoke_with_retry chain fbRun (intentParams query schema_context)
        s 3 cache t0).outcome = .error e →
      (run_intent_agent chain fbRun s cache t0 query schema_context).1.status = "error" ∧
      jlookup (run_intent_agent chain fbRun s cache t0 query schema_context).1.data
        "error" = some (.str (errText e)) ∧
      (run_intent_agent chain fbRun s cache t0 query schema_context).1.message =
        errText e) ∧
    ((invoke_with_retry chain fbRun (discoveryParams intent schema_context kg_context)
        s 3 cache t0).outcome = .error e →
      (run_discovery_agent chain fbRun s cache t0 intent schema_context
        kg_context).1.status = "error" ∧
      jlookup (run_discovery_agent chain fbRun s cache t0 intent schema_context
        kg_context).1.data "error" = some (.str (errText e)) ∧
      (run_discovery_agent chain fbRun s cache t0 intent schema_context
        kg_context).1.message = errText e) ∧
    ((invoke_with_retry chain fbRun (queryParams intent discovery schema_context)
        s 3 cache t0).outcome = .error e →
      (run_query_agent chain fbRun s cache t0 intent discovery
        schema_context).1.status = "error" ∧
      jlookup (run_query_agent chain fbRun s cache t0 intent discovery
        schema_context).1.data "error" = some (.str (errText e)) ∧
      (run_query_agent chain fbRun s cache t0 intent discovery
        schema_context).1.message = errText e) ∧
    ((invoke_with_retry chain fbRun (trustParams user_query sql result_data)
        s 3 cache t0).outcome = .error e →
      (run_trust_agent chain fbRun s cache t0 user_query sql
        result_data).1.status = "error" ∧
      jlookup (run_trust_agent chain fbRun s cache t0 user_query sql
        result_data).1.data "error" = some (.str (errText e)) ∧
      (run_trust_agent chain fbRun s cache t0 user_query sql
        result_data).1.message = errText e) ∧
    ((invoke_with_retry chain fbRun
        (analystParams user_query sql result_data numeric_summary)
        s 3 cache t0).outcome = .error e →
      (run_analyst_agent chain fbRun s cache t0 user_query sql result_data
        numeric_summary).1.status = "error" ∧
      jlookup (run_analyst_agent chain fbRun s cache t0 user_query sql result_data
        numeric_summary).1.data "error" = some (.str (errText e)) ∧
      (run_analyst_agent chain fbRun s cache t0 user_query sql result_data
        numeric_summary).1.message = errText e) := by
  refine ⟨?_, ?_, ?_, ?_, ?_⟩
  · intro h
    simp [run_intent_agent, h, errorResult, jlookup]
  · intro h
    simp [run_discovery_agent, h, errorResult, jlookup]
  · intro h
    simp [run_query_agent, h, errorResult, jlookup]
  · intro h
    simp [run_trust_agent, h, jlookup]
  · intro h
    simp [run_analyst_agent, h, errorResult, jlookup]

/-- Witness for C8: a non-rate-classified exception (`boom`) raised on
every attempt reaches each stage's `except` arm. -/
theorem C8_stage_error_containment_witness :
    ((run_intent_agent ⟨"T", fun _ => .error "boom"⟩ (fun _ _ => .ok "fb")
        ⟨300, "m"⟩ [] 0 "q" "sc").1.status = "error" ∧
      jlookup (run_intent_agent ⟨"T", fun _ => .error "boom"⟩ (fun _ _ => .ok "fb")
        ⟨300, "m"⟩ [] 0 "q" "sc").1.data "error" = some (.str (errText (some "boom"))) ∧
      (run_intent_agent ⟨"T", fun _ => .error "boom"⟩ (fun _ _ => .ok "fb")
        ⟨300, "m"⟩ [] 0 "q" "sc").1.message = errText (some "boom")) ∧
    ((run_discovery_agent ⟨"T", fun _ => .error "boom"⟩ (fun _ _ => .ok "fb")
        ⟨300, "m"⟩ [] 0 (Json.obj []) "sc" "kg").1.status = "error" ∧
      jlookup (run_discovery_agent ⟨"T", fun _ => .error "boom"⟩ (fun _ _ => .ok "fb")
        ⟨300, "m"⟩ [] 0 (Json.obj []) "sc" "kg").1.data "error" =
          some (.str (errText (some "boom"))) ∧
      (run_discovery_agent ⟨"T", fun _ => .error "boom"⟩ (fun _ _ => .ok "fb")
        ⟨300, "m"⟩ [] 0 (Json.obj []) "sc" "kg").1.message = errText (some "boom")) ∧
    ((run_query_agent ⟨"T", fun _ => .error "boom"⟩ (fun _ _ => .ok "fb")
        ⟨300, "m"⟩ [] 0 (Json.obj []) (Json.obj []) "sc").1.status = "error" ∧
      jlookup (run_query_agent ⟨"T", fun _ => .error "boom"⟩ (fun _ _ => .ok "fb")
        ⟨300, "m"⟩ [] 0 (Json.obj []) (Json.obj []) "sc").1.data "error" =
          some (.str (errText (some "boom"))) ∧
      (run_query_agent ⟨"T", fun _ => .error "boom"⟩ (fun _ _ => .ok "fb")
        ⟨300, "m"⟩ [] 0 (Json.obj []) (Json.obj []) "sc").1.message =
          errText (some "boom")) ∧
    ((run_trust_agent ⟨"T", fun _ => .error "boom"⟩ (fun _ _ => .ok "fb")
        ⟨300, "m"⟩ [] 0 "uq" "MATCH (c) RETURN c" []).1.status = "error" ∧
      jlookup (run_trust_agent ⟨"T", fun _ => .error "boom"⟩ (fun _ _ => .ok "fb")
        ⟨300, "m"⟩ [] 0 "uq" "MATCH (c) RETURN c" []).1.data "error" =
          some (.str (errText (some "boom"))) ∧
      (run_trust_agent ⟨"T", fun _ => .error "boom"⟩ (fun _ _ => .ok "fb")
        ⟨300, "m"⟩ [] 0 "uq" "MATCH (c) RETURN c" []).1.message =
          errText (some "boom")) ∧
    ((run_analyst_agent ⟨"T", fun _ => .error "boom"⟩ (fun _ _ => .ok "fb")
        ⟨300, "m"⟩ [] 0 "uq" "MATCH (c) RETURN c" [] "").1.status = "error" ∧
      jlookup (run_analyst_agent ⟨"T", fun _ => .error "boom"⟩ (fun _ _ => .ok "fb")
        ⟨300, "m"⟩ [] 0 "uq" "MATCH (c) RETURN c" [] "").1.data "error" =
          some (.str (errText (some "boom"))) ∧
      (run_analyst_agent ⟨"T", fun _ => .error "boom"⟩ (fun _ _ => .ok "fb")
        ⟨300, "m"⟩ [] 0 "uq" "MATCH (c) RETURN c" [] "").1.message =
          errText (some "boom")) := by
  have h := C8_stage_error_containment ⟨"T", fun _ => .error "boom"⟩ (fun _ _ => .ok "fb")
    ⟨300, "m"⟩ [] 0 "q" "sc" "kg" "uq" "MATCH (c) RETURN c" "" (Json.obj [])
    (Json.obj []) [] (some "boom")
  exact ⟨h.1 (by decide), h.2.1 (by decide), h.2.2.1 (by decide), h.2.2.2.1 (by decide),
    h.2.2.2.2 (by decide)⟩

/-- **C9** (failing input): on the input text `"123"` there is no
fenced block and no brace span, the whole trimmed text decodes as the
JSON number `123`, and `_extract_json` returns that number — not a
mapping — contradicting the function's `-> dict` annotation (the
never-raises and raw/parse-error-fallback parts of the claim do hold:
`extract_json` is total by construction and ends in the raw mapping
when every decode fails). -/
theorem C9_extract_json_returns_nondict :
    extract_json "123" = Json.num 123 0 ∧
    (∀ fields, extract_json "123" ≠ Json.obj fields) := by
  refine ⟨rfl, ?_⟩
  intro fields h
  rw [show extract_json "123" = Json.num 123 0 from rfl] at h
  exact Json.noConfusion h

/-- **C10**: if the trust/validation stage's model invocation raises,
`run_trust_agent` returns status `"error"` with a payload reporting
`trust_score = 50` and `approved = true` — an approving mid-scale
default rather than a rejection or an empty payload. -/
theorem C10_trust_error_approving_default (chain : Chain) (fbRun : FallbackRun)
    (s : Settings) (cache : Cache) (t0 : ℚ) (user_query sql : String)
    (result_data : List Row) (e : Option String)
    (herr : (invoke_with_retry chain fbRun (trustParams user_query sql result_data)
      s 3 cache t0).outcome = .error e) :
    (run_trust_agent chain fbRun s cache t0 user_query sql result_data).1.status =
      "error" ∧
    jlookup (run_trust_agent chain fbRun s cache t0 user_query sql
      result_data).1.data "trust_score" = some (.num 50 0) ∧
    jlookup (run_trust_agent chain fbRun s cache t0 user_query sql
      result_data).1.data "approved" = some (.bool true) ∧
    jlookup (run_trust_agent chain fbRun s cache t0 user_query sql
      result_data).1.data "error" = some (.str (errText e)) := by
  simp [run_trust_agent, herr, jlookup]

/-- Witness for C10 at a concrete fatal invocation failure (`oops` is
not rate-classified, so the invoker re-raises it into the stage). -/
theorem C10_trust_error_approving_default_witness :
    (run_trust_agent ⟨"T", fun _ => .error "oops"⟩ (fun _ _ => .ok "fb")
      ⟨300, "m"⟩ [] 0 "uq" "MATCH (c) RETURN c" []).1.status = "error" ∧
    jlookup (run_trust_agent ⟨"T", fun _ => .error "oops"⟩ (fun _ _ => .ok "fb")
      ⟨300, "m"⟩ [] 0 "uq" "MATCH (c) RETURN c" []).1.data "trust_score" =
        some (.num 50 0) ∧
    jlookup (run_trust_agent ⟨"T", fun _ => .error "oops"⟩ (fun _ _ => .ok "fb")
      ⟨300, "m"⟩ [] 0 "uq" "MATCH (c) RETURN c" []).1.data "approved" =
        some (.bool true) ∧
    jlookup (run_trust_agent ⟨"T", fun _ => .error "oops"⟩ (fun _ _ => .ok "fb")
      ⟨300, "m"⟩ [] 0 "uq" "MATCH (c) RETURN c" []).1.data "error" =
        some (.str (errText (some "oops"))) :=
  C10_trust_error_approving_default ⟨"T", fun _ => .error "oops"⟩ (fun _ _ => .ok "fb")
    ⟨300, "m"⟩ [] 0 "uq" "MATCH (c) RETURN c" [] (some "oops") (by decide)

end Ados
